import Mathlib

/-!
# Ploutos core: shallow embedding and verification

A shallow embedding of the Ploutos transaction-decomposition core
(`back/ploutos/processors`, `back/ploutos/services/matching_service.py`,
`back/ploutos/api/routers/{matching,transfers,transactions}.py`) together
with theorems settling the specification claims.

Monetary amounts are modelled as exact rationals (`ℚ`); Python's
`round(x, 2)` is modelled as round-half-to-even at two decimal digits,
the rounding mode of Python's `round` builtin.  Fallible code is modelled
with `Except`; database tables are lists of rows, and the store's filtered
queries are list filters.
-/

namespace Ploutos

/-! ## Rounding (Python `round(x, 2)`) -/

/-- Round-half-to-even of a rational to an integer, the tie-breaking rule of
Python's `round` builtin. -/
def roundHalfEven (q : ℚ) : ℤ :=
  let n := ⌊q⌋
  let frac := q - (n : ℚ)
  if frac < 1/2 then n
  else if 1/2 < frac then n + 1
  else if Even n then n else n + 1

/-- Python's `round(x, 2)`: round to two decimal digits, ties to even. -/
def round2 (q : ℚ) : ℚ := (roundHalfEven (q * 100) : ℚ) / 100

/-- A rational is a whole number of cents. -/
def IsCents (q : ℚ) : Prop := ∃ m : ℤ, q = (m : ℚ) / 100

/-- Python's `str.lower()`, modelled character-wise (ASCII data).  Defined
structurally over the character list so that proofs can evaluate it. -/
def lowerStr (s : String) : String := ⟨s.data.map Char.toLower⟩

/-! ## Data model

`Account` and the slave row fields are taken from `ploutos/db/models.py`.
The `TransactionWithSlaves` shape (a master row with its slave rows and
their joined accounts embedded) is referenced from `ploutos.db.models`
throughout the processors and services but its class definition is not in
the sources, so its fields are modelled from the spec (§3) and from how the
processors read it.  UUIDs and datetimes are modelled as strings resp. a
year/month/day record. -/

structure Account where
  accountId : String
  name : String
  category : String
  sub_category : String
  is_real : Bool
  deriving DecidableEq, Repr, Inhabited

/-- The Unknown sentinel test of `TransactionProcessor._validate_transaction`:
name, category and sub_category all `"Unknown"` and `is_real` exactly false. -/
def isUnknownAccount (a : Account) : Bool :=
  a.name == "Unknown" && a.category == "Unknown" &&
    a.sub_category == "Unknown" && a.is_real == false

/-- A calendar date at day granularity (models `datetime.date`; processors
only read year and month, slaves copy the master's date verbatim). -/
structure LDate where
  year : ℤ
  month : ℤ
  day : ℤ
  deriving DecidableEq, Repr, Inhabited

/-- Modelled from the spec: a slave row joined with its account, as embedded
in `TransactionWithSlaves` (the class is referenced from `ploutos.db.models`
but not defined in the sources); row fields per `TransactionSlave` in
`ploutos/db/models.py`, plus the joined `Accounts` record. -/
structure EmbeddedSlave where
  slaveId : String
  masterId : String
  accountId : String
  amount : ℚ
  type : String
  date : LDate
  Accounts : Account
  deriving DecidableEq, Repr, Inhabited

/-- Modelled from the spec: `TransactionWithSlaves` (master transaction with
embedded slave rows), referenced from `ploutos.db.models` but not defined in
the sources; master fields per `Transaction` in `ploutos/db/models.py`. -/
structure TransactionWithSlaves where
  transactionId : String
  description : String
  date : LDate
  type : String
  amount : ℚ
  accountId : String
  TransactionsSlaves : List EmbeddedSlave
  deriving DecidableEq, Repr, Inhabited

/-- `TransactionSlaveCreate` from `ploutos/db/models.py`: the draft slave
rows a processor emits. -/
structure TransactionSlaveCreate where
  type : String
  amount : ℚ
  date : LDate
  accountId : String
  masterId : String
  deriving DecidableEq, Repr, Inhabited

/-- `ProcessorResult` dict shape returned by every processor's `process`. -/
structure ProcessorResult where
  success : Bool
  slaves : List TransactionSlaveCreate
  error_message : Option String
  deriving DecidableEq, Repr, Inhabited

/-! ## Shared validator (`TransactionProcessor._validate_transaction`) -/

/-- Signed master amount as computed in check 3 of `_validate_transaction`
(before rounding): `-amount` for a debit master, `amount` otherwise. -/
def signedMaster (t : TransactionWithSlaves) : ℚ :=
  if lowerStr t.type == "debit" then -t.amount else t.amount

/-- Credit total over the new slave drafts. -/
def totalCredit (new_slaves : List TransactionSlaveCreate) : ℚ :=
  ((new_slaves.filter (fun s => s.type == "credit")).map (fun s => s.amount)).sum

/-- Debit total over the new slave drafts. -/
def totalDebit (new_slaves : List TransactionSlaveCreate) : ℚ :=
  ((new_slaves.filter (fun s => s.type == "debit")).map (fun s => s.amount)).sum

/-- Signed slave total as computed in check 3 of `_validate_transaction`
(before rounding): `-(total_credit - total_debit)`. -/
def signedSlaves (new_slaves : List TransactionSlaveCreate) : ℚ :=
  -(totalCredit new_slaves - totalDebit new_slaves)

/-- `TransactionProcessor._validate_transaction` (`processors/base.py`):
check 1 the master has exactly one slave, check 2 that slave's account is
the Unknown sentinel, check 3 the rounded signed master amount equals the
rounded signed slave total.  Python raises `ValueError`; modelled as
`Except String`. -/
def validate_transaction (t : TransactionWithSlaves)
    (new_slaves : List TransactionSlaveCreate) : Except String Unit :=
  if t.TransactionsSlaves.length ≠ 1 then
    .error ("Transaction " ++ t.transactionId ++ " has " ++
      toString t.TransactionsSlaves.length ++ " slaves, expected 1")
  else
    let slave := t.TransactionsSlaves.headD default
    let slave_account := slave.Accounts
    if ¬ (isUnknownAccount slave_account = true) then
      .error ("Transaction " ++ t.transactionId ++ " slave points to " ++
        slave_account.name ++ ", not Unknown")
    else
      let signed_master := round2 (signedMaster t)
      let signed_slaves := round2 (signedSlaves new_slaves)
      if signed_master ≠ signed_slaves then
        .error ("Balance mismatch: master " ++ lowerStr t.type ++ " " ++
          toString t.amount ++ " (signed: " ++ toString signed_master ++
          "), slaves credit " ++ toString (totalCredit new_slaves) ++
          ", debit " ++ toString (totalDebit new_slaves) ++
          " (signed sum: " ++ toString signed_slaves ++
          "). Formula: master_amount = -(slave_credit - slave_debit)")
      else
        .ok ()

/-! ## SimpleSplitProcessor (`processors/simple_split.py`) -/

/-- One split of `SimpleSplitConfig`. -/
structure SplitItem where
  account_id : String
  percentage : ℚ
  deriving DecidableEq, Repr, Inhabited

/-- `SimpleSplitConfig`: ordered list of splits. -/
structure SimpleSplitConfig where
  splits : List SplitItem
  deriving DecidableEq, Repr, Inhabited

/-- The pydantic validation of `SimpleSplitConfig`: at least one split, each
percentage in `(0, 100]`, and the percentages sum to exactly 100. -/
def SimpleSplitConfig.Valid (c : SimpleSplitConfig) : Prop :=
  c.splits ≠ [] ∧ (∀ s ∈ c.splits, 0 < s.percentage ∧ s.percentage ≤ 100) ∧
    (c.splits.map (fun s => s.percentage)).sum = 100

/-- The slave type used by `SimpleSplitProcessor.process`: the opposite of
the master's (lower-cased) type. -/
def invertedType (t : TransactionWithSlaves) : String :=
  if lowerStr t.type == "credit" then "debit" else "credit"

/-- The non-last slave drafts of `SimpleSplitProcessor.process`: one per
split of `config.splits[:-1]`, amount `round(|master.amount| * percentage
/ 100, 2)`. -/
def simpleSplitFirstSlaves (t : TransactionWithSlaves)
    (config : SimpleSplitConfig) : List TransactionSlaveCreate :=
  config.splits.dropLast.map (fun split =>
    { masterId := t.transactionId
      accountId := split.account_id
      amount := round2 (|t.amount| * split.percentage / 100)
      type := invertedType t
      date := t.date })

/-- `SimpleSplitProcessor.process`: emit one slave per split (the last split
receives `|master.amount|` minus the sum of the previously rounded amounts),
then run the shared validator; every failure is returned as a tagged result.
An empty split list raises `IndexError` at `config.splits[-1]`, caught by
the blanket `except` into a failure result. -/
def SimpleSplitProcessor.process (t : TransactionWithSlaves)
    (config : SimpleSplitConfig) : ProcessorResult :=
  match config.splits.getLast? with
  | none => { success := false, slaves := [], error_message := some "list index out of range" }
  | some last_split =>
    let new_slaves₀ := simpleSplitFirstSlaves t config
    let sum_previous := (new_slaves₀.map (fun s => s.amount)).sum
    let last_amount := |t.amount| - sum_previous
    let last_slave : TransactionSlaveCreate :=
      { masterId := t.transactionId
        accountId := last_split.account_id
        amount := last_amount
        type := invertedType t
        date := t.date }
    let new_slaves := new_slaves₀ ++ [last_slave]
    match validate_transaction t new_slaves with
    | .error e => { success := false, slaves := [], error_message := some e }
    | .ok _ => { success := true, slaves := new_slaves, error_message := none }

/-! ## LoanProcessor (`processors/loan.py`) -/

/-- `LoanConfig` (insurance fields are absent from the implementation). -/
structure LoanConfig where
  loan_amount : ℚ
  annual_rate : ℚ
  duration_months : ℕ
  start_date : LDate
  capital_account_id : String
  interest_account_id : String
  deriving DecidableEq, Repr, Inhabited

/-- The pydantic validation of `LoanConfig`: positive principal, rate in
`[0, 100]`, positive duration. -/
def LoanConfig.Valid (c : LoanConfig) : Prop :=
  0 < c.loan_amount ∧ 0 ≤ c.annual_rate ∧ c.annual_rate ≤ 100 ∧
    0 < c.duration_months

/-- `calculate_monthly_payment`: fixed monthly payment by the amortization
formula `M = P·r·(1+r)^n / ((1+r)^n − 1)` with `r = annual_rate/100/12`;
`P/n` when the rate is zero. -/
def calculate_monthly_payment (principal annual_rate : ℚ) (months : ℕ) : ℚ :=
  if annual_rate = 0 then principal / months
  else
    let monthly_rate := annual_rate / 100 / 12
    let numerator := monthly_rate * (1 + monthly_rate) ^ months
    let denominator := (1 + monthly_rate) ^ months - 1
    principal * (numerator / denominator)

/-- `get_payment_number`: 1-based month-granularity payment index; fails when
the transaction predates the loan start. -/
def get_payment_number (transaction_date start_date : LDate) : Except String ℤ :=
  let months_diff := (transaction_date.year - start_date.year) * 12 +
    (transaction_date.month - start_date.month)
  if months_diff < 0 then
    .error ("Transaction date is before loan start date")
  else
    .ok (months_diff + 1)

/-- One iteration of the `calculate_payment_breakdown` loop: state is
`(principal_payment, interest_payment, remaining_balance)`; on the final
scheduled period the principal is forced to the exact remaining balance,
interest to `M - principal`, and the balance to zero. -/
def breakdownStep (duration_months : ℕ) (M r : ℚ) (st : ℚ × ℚ × ℚ)
    (period : ℕ) : ℚ × ℚ × ℚ :=
  let remaining_balance := st.2.2
  let interest_payment := remaining_balance * r
  let principal_payment := M - interest_payment
  if period = duration_months then
    (remaining_balance, M - remaining_balance, 0)
  else
    (principal_payment, interest_payment, remaining_balance - principal_payment)

/-- The pre-rounding state of `calculate_payment_breakdown` after simulating
periods `1..k` from the full schedule. -/
def breakdownRaw (payment_number : ℕ) (config : LoanConfig) : ℚ × ℚ × ℚ :=
  let M := calculate_monthly_payment config.loan_amount config.annual_rate
    config.duration_months
  let r := config.annual_rate / 100 / 12
  (List.range' 1 payment_number).foldl
    (breakdownStep config.duration_months M r) (0, 0, config.loan_amount)

/-- `calculate_payment_breakdown`: the period-`k` triple
`(principal, interest, remaining)`, each rounded to two decimals. -/
def calculate_payment_breakdown (payment_number : ℕ) (config : LoanConfig) :
    ℚ × ℚ × ℚ :=
  let s := breakdownRaw payment_number config
  (round2 s.1, round2 s.2.1, round2 s.2.2)

/-- `LoanProcessor.process`: reject non-debit masters; compute the payment
number (rejecting dates outside the loan term); emit a credit slave with the
theoretical period interest to the interest account and a credit slave with
`round(|amount| − interest, 2)` to the capital account; run the shared
validator.  All failures are returned as tagged results. -/
def LoanProcessor.process (t : TransactionWithSlaves) (config : LoanConfig) :
    ProcessorResult :=
  if lowerStr t.type ≠ "debit" then
    { success := false, slaves := [],
      error_message := some ("Loan payment must be debit type, got " ++ t.type) }
  else
    match get_payment_number t.date config.start_date with
    | .error e => { success := false, slaves := [], error_message := some e }
    | .ok payment_number =>
      if payment_number > config.duration_months then
        { success := false, slaves := [],
          error_message := some ("Payment #" ++ toString payment_number ++
            " exceeds loan term (" ++ toString config.duration_months ++ " months)") }
      else
        let interest := (calculate_payment_breakdown payment_number.toNat config).2.1
        let actual_amount := |t.amount|
        let interest_slave : TransactionSlaveCreate :=
          { masterId := t.transactionId
            accountId := config.interest_account_id
            amount := interest
            type := "credit"
            date := t.date }
        let capital_amount := round2 (actual_amount - interest)
        let capital_slave : TransactionSlaveCreate :=
          { masterId := t.transactionId
            accountId := config.capital_account_id
            amount := capital_amount
            type := "credit"
            date := t.date }
        let new_slaves := [interest_slave, capital_slave]
        match validate_transaction t new_slaves with
        | .error e => { success := false, slaves := [], error_message := some e }
        | .ok _ => { success := true, slaves := new_slaves, error_message := none }

/-! ## Matching engine (`services/matching_service.py`)

The Ledger Store is modelled as lists of rows; Supabase/PostgREST filtered
queries with `!inner` joins are modelled as list filters, and
`range(offset, offset+page_size-1)` pagination as `drop`/`take`.  The
`MatchType` and `LogicalOperator` enums are referenced from
`ploutos.db.models` but not defined in the sources, so they are modelled
from the spec (§4.4). -/

/-- Modelled from the spec: one rule condition (`match_type`, `match_value`).
Description predicates follow the SQL `ILIKE` patterns built by
`_apply_condition_filter` (`%v%`, `v%`, `v`, each case-insensitive); the
store-side `~*` regex engine (§6, external to the sources) is carried as its
compiled predicate; amount comparisons are against the transaction amount. -/
inductive Condition where
  | contains (value : String)
  | starts_with (value : String)
  | exact (value : String)
  | regex (matcher : String → Bool)
  | amount_gt (value : ℚ)
  | amount_lt (value : ℚ)
  | amount_gte (value : ℚ)
  | amount_lte (value : ℚ)
  | amount_eq (value : ℚ)

/-- Modelled from the spec: the `LogicalOperator` enum (AND | OR); any
non-AND operator takes the OR branch in `find_matching_transactions`. -/
inductive LogicalOperator where
  | and
  | or
  deriving DecidableEq, Repr

/-- One `condition_groups` entry of a categorization rule. -/
structure ConditionGroup where
  operator : LogicalOperator
  conditions : List Condition

/-- A master transaction row of the `Transactions` table. -/
structure TxRow where
  transactionId : String
  description : String
  date : LDate
  type : String
  amount : ℚ
  accountId : String
  deriving DecidableEq, Repr, Inhabited

/-- A slave row of the `TransactionsSlaves` table. -/
structure SlaveRow where
  slaveId : String
  masterId : String
  accountId : String
  amount : ℚ
  type : String
  date : LDate
  deriving DecidableEq, Repr, Inhabited

/-- A typed processor configuration; the registry's dispatch on the rule's
`processor_type` string is modelled by this closed sum (configs reach the
batch endpoint already validated). -/
inductive PConfig where
  | simple_split (config : SimpleSplitConfig)
  | loan (config : LoanConfig)

/-- A `CategorizationRules` row.  `account_ids = []` models a missing/empty
account filter (falsy in Python); `transaction_filter` models
`processor_config.transaction_filter`. -/
structure Rule where
  ruleId : String
  description : String
  priority : ℤ
  enabled : Bool
  account_ids : List String
  transaction_filter : Option String
  processor_config : PConfig
  condition_groups : List ConditionGroup

/-- The Ledger Store tables the matching engine touches. -/
structure Store where
  accounts : List Account
  transactions : List TxRow
  slaves : List SlaveRow
  rules : List Rule

/-- Account lookup by id (the `Accounts!inner` join target). -/
def accountOf (db : Store) (aid : String) : Option Account :=
  db.accounts.find? (fun a => a.accountId == aid)

/-- Substring containment on character lists (SQL `ILIKE '%v%'` without
wildcard characters in `v`). -/
def containsSub (needle : List Char) : List Char → Bool
  | [] => needle.isEmpty
  | c :: rest => needle.isPrefixOf (c :: rest) || containsSub needle rest

/-- `_apply_condition_filter`: evaluate one condition against a transaction
row (description and amount filters apply to the parent row). -/
def conditionHolds (c : Condition) (t : TransactionWithSlaves) : Bool :=
  match c with
  | .contains v => containsSub (lowerStr v).data (lowerStr t.description).data
  | .starts_with v => (lowerStr v).data.isPrefixOf (lowerStr t.description).data
  | .exact v => lowerStr t.description == lowerStr v
  | .regex m => m t.description
  | .amount_gt v => decide (v < t.amount)
  | .amount_lt v => decide (t.amount < v)
  | .amount_gte v => decide (v ≤ t.amount)
  | .amount_lte v => decide (t.amount ≤ v)
  | .amount_eq v => t.amount == v

/-- The `TransactionsSlaves!inner (*, Accounts!inner (*))` embed of
`_build_base_query` with its four Unknown-account equality filters: the
slave rows of the transaction whose joined account is the Unknown
sentinel. -/
def unknownJoins (db : Store) (tx : TxRow) : List EmbeddedSlave :=
  db.slaves.filterMap (fun s =>
    if s.masterId == tx.transactionId then
      match accountOf db s.accountId with
      | some a =>
        if isUnknownAccount a then
          some { slaveId := s.slaveId, masterId := s.masterId,
                 accountId := s.accountId, amount := s.amount, type := s.type,
                 date := s.date, Accounts := a }
        else none
      | none => none
    else none)

/-- The record shape a base-query row is parsed into
(`TransactionWithSlaves(**tx_dict)`): the master row plus the embedded
(Unknown-filtered) slave rows. -/
def mkRecord (db : Store) (tx : TxRow) : TransactionWithSlaves :=
  { transactionId := tx.transactionId, description := tx.description,
    date := tx.date, type := tx.type, amount := tx.amount,
    accountId := tx.accountId, TransactionsSlaves := unknownJoins db tx }

/-- The optional account and transaction-type filters of
`_build_base_query`. -/
def ruleBaseFilter (rule : Rule) (tx : TxRow) : Bool :=
  (rule.account_ids.isEmpty || rule.account_ids.contains tx.accountId) &&
    (match rule.transaction_filter with
     | none => true
     | some tf => tf == "all" || tx.type == tf)

/-- `_build_base_query` executed against the store: transactions with at
least one Unknown-joined slave (`!inner`), restricted by the rule's account
and type filters, each returned with its embedded slave list. -/
def baseQueryResults (db : Store) (rule : Rule) : List TransactionWithSlaves :=
  (db.transactions.filter (fun tx =>
    !(unknownJoins db tx).isEmpty && ruleBaseFilter rule tx)).map (mkRecord db)

/-- `_filter_single_slave`: keep transactions whose embedded (Unknown) slave
list has exactly one element. -/
def filterSingleSlave (l : List TransactionWithSlaves) : List TransactionWithSlaves :=
  l.filter (fun r => r.TransactionsSlaves.length == 1)

/-- Insertion into the `all_matched` dict keyed by `transactionId`: keep the
first record per id, preserving insertion order. -/
def insertNew (acc page : List TransactionWithSlaves) : List TransactionWithSlaves :=
  page.foldl (fun acc tx =>
    if acc.any (fun t => t.transactionId == tx.transactionId) then acc
    else acc ++ [tx]) acc

/-- The shared pagination loop of `_match_and_conditions` /
`_match_or_conditions`: fetch `range(offset, offset+page_size-1)` pages of
the filtered results, combine each single-slave-filtered page into the
accumulator with `f`, and stop on an empty or short page. -/
def fetchLoop (f : List TransactionWithSlaves → List TransactionWithSlaves →
      List TransactionWithSlaves)
    (results : List TransactionWithSlaves) (page_size offset : ℕ)
    (acc : List TransactionWithSlaves) : List TransactionWithSlaves :=
  if h1 : ((results.drop offset).take page_size).isEmpty then acc
  else
    if h2 : ((results.drop offset).take page_size).length < page_size then
      f acc (filterSingleSlave ((results.drop offset).take page_size))
    else
      fetchLoop f results page_size (offset + page_size)
        (f acc (filterSingleSlave ((results.drop offset).take page_size)))
termination_by results.length - offset
decreasing_by
  have hne : (results.drop offset).take page_size ≠ [] := by
    simpa using h1
  have hpos : 0 < ((results.drop offset).take page_size).length :=
    List.length_pos.mpr hne
  have hlen : ((results.drop offset).take page_size).length =
      min page_size (results.length - offset) := by
    simp [List.length_take, List.length_drop]
  omega

/-- `_match_and_conditions`: no conditions match nothing; otherwise one
query chains every condition (all must hold) and is paged to exhaustion. -/
def matchAndConditions (db : Store) (rule : Rule) (conditions : List Condition)
    (page_size : ℕ) : List TransactionWithSlaves :=
  if conditions.isEmpty then []
  else
    fetchLoop (fun a b => a ++ b)
      ((baseQueryResults db rule).filter (fun r =>
        conditions.all (fun c => conditionHolds c r)))
      page_size 0 []

/-- `_match_or_conditions`: one independent paged query per condition,
results unioned into the id-keyed dict. -/
def matchOrConditions (db : Store) (rule : Rule) (conditions : List Condition)
    (page_size : ℕ) : List TransactionWithSlaves :=
  conditions.foldl (fun acc c =>
    fetchLoop insertNew
      ((baseQueryResults db rule).filter (fun r => conditionHolds c r))
      page_size 0 acc) []

/-- The evaluation of one condition group per its operator. -/
def groupEval (db : Store) (rule : Rule) (g : ConditionGroup) (page_size : ℕ) :
    List TransactionWithSlaves :=
  match g.operator with
  | .and => matchAndConditions db rule g.conditions page_size
  | .or => matchOrConditions db rule g.conditions page_size

/-- `find_matching_transactions`: no groups match nothing; groups with no
conditions are skipped; group results are OR'd together into the id-keyed
dict regardless of each group's own operator. -/
def find_matching_transactions (db : Store) (rule : Rule)
    (page_size : ℕ := 1000) : List TransactionWithSlaves :=
  if rule.condition_groups.isEmpty then []
  else
    rule.condition_groups.foldl (fun acc g =>
      if g.conditions.isEmpty then acc
      else insertNew acc (groupEval db rule g page_size)) []

/-- What it means for a transaction record to match one condition group:
it lies in the rule's base universe with exactly one Unknown slave, and
satisfies every condition of an AND group resp. at least one condition of
an OR group. -/
def MatchesGroup (db : Store) (rule : Rule) (g : ConditionGroup)
    (r : TransactionWithSlaves) : Prop :=
  r ∈ baseQueryResults db rule ∧ r.TransactionsSlaves.length = 1 ∧
    (match g.operator with
     | .and => ∀ c ∈ g.conditions, conditionHolds c r = true
     | .or => ∃ c ∈ g.conditions, conditionHolds c r = true)

/-- Any two members of the list sharing a `transactionId` are equal. -/
def IdInjOn (S : List TransactionWithSlaves) : Prop :=
  ∀ a ∈ S, ∀ b ∈ S, a.transactionId = b.transactionId → a = b

/-! ## Batch rule application (`api/routers/matching.py::process_matching`
and `services/matching_service.py::apply_processor_to_transaction`) -/

/-- Registry dispatch: run the processor selected by the rule's typed
config. -/
def runProcessor (t : TransactionWithSlaves) : PConfig → ProcessorResult
  | .simple_split config => SimpleSplitProcessor.process t config
  | .loan config => LoanProcessor.process t config

/-- `apply_processor_to_transaction`: run the processor and, on success,
delete the transaction's embedded slaves by `slaveId` and insert the
generated slave set (primary keys are store-generated, modelled by
`freshBase`-derived ids); on failure the store is untouched. -/
def apply_processor_to_transaction (db : Store) (t : TransactionWithSlaves)
    (config : PConfig) (freshBase : ℕ) : ProcessorResult × Store :=
  let result := runProcessor t config
  if result.success then
    let remaining := db.slaves.filter (fun s =>
      !(t.TransactionsSlaves.any (fun e => e.slaveId == s.slaveId)))
    let newRows := result.slaves.enum.map (fun p =>
      { slaveId := "gen-" ++ toString freshBase ++ "-" ++ toString p.1,
        masterId := p.2.masterId, accountId := p.2.accountId,
        amount := p.2.amount, type := p.2.type, date := p.2.date : SlaveRow })
    (result, { db with slaves := remaining ++ newRows })
  else
    (result, db)

/-- The aggregate counters and detail list of `MatchingProcessResult`
(details as `(transaction_id, matched_rule)` pairs). -/
structure BatchResults where
  processed : ℕ
  categorized : ℕ
  failed : ℕ
  details : List (String × String)
  deriving DecidableEq, Repr, Inhabited

/-- The loop state of `process_matching`: the evolving store, the result
counters, the `processed_transaction_ids` set and the fresh-id counter. -/
structure BatchState where
  db : Store
  results : BatchResults
  processedIds : List String
  fresh : ℕ

/-- Enabled rules ordered by priority descending
(`.eq("enabled", True).order("priority", desc=True)`). -/
def sortedEnabledRules (rules : List Rule) : List Rule :=
  (rules.filter (fun r => r.enabled)).mergeSort
    (fun a b => decide (b.priority ≤ a.priority))

/-- The per-transaction body of `process_matching`: skip ids already
categorized in this run; otherwise count the attempt, apply the processor,
and on success record the categorization (id marked processed, detail row
appended); on failure only count it — the loop continues. -/
def processTransaction (rule : Rule) (st : BatchState)
    (t : TransactionWithSlaves) : BatchState :=
  if st.processedIds.contains t.transactionId then st
  else
    let st1 : BatchState :=
      { st with results := { st.results with processed := st.results.processed + 1 } }
    let rdb := apply_processor_to_transaction st1.db t rule.processor_config st1.fresh
    if rdb.1.success then
      { st1 with
        db := rdb.2
        results := { st1.results with
          categorized := st1.results.categorized + 1
          details := st1.results.details ++ [(t.transactionId, rule.description)] }
        processedIds := st1.processedIds ++ [t.transactionId]
        fresh := st1.fresh + 1 }
    else
      { st1 with
        db := rdb.2
        results := { st1.results with failed := st1.results.failed + 1 }
        fresh := st1.fresh + 1 }

/-- One rule of the batch: find its matching transactions in the current
store and process each in order. -/
def processRule (st : BatchState) (rule : Rule) : BatchState :=
  (find_matching_transactions st.db rule 1000).foldl (processTransaction rule) st

/-- `process_matching`: apply every enabled rule in descending priority
order, returning the aggregate results and the final store. -/
def process_matching (db : Store) : BatchResults × Store :=
  let final := (sortedEnabledRules db.rules).foldl processRule
    { db := db, results := { processed := 0, categorized := 0, failed := 0, details := [] },
      processedIds := [], fresh := 0 }
  (final.results, final.db)

/-- The loop invariant of the batch: counters are consistent and every
detail row's transaction id was marked processed, at most once. -/
def BatchInv (st : BatchState) : Prop :=
  st.results.processed = st.results.categorized + st.results.failed ∧
    st.results.details.length = st.results.categorized ∧
    (st.results.details.map Prod.fst).Nodup ∧
    ∀ p ∈ st.results.details, p.1 ∈ st.processedIds

/-! ## Transfer engine (`api/routers/transfers.py` and
`api/routers/transactions.py::split_slave`)

The transfer endpoints read dates as ISO strings and truncate to day
granularity by splitting at `"T"`; ids are strings; primary keys generated
by the store are passed in as `fresh…` parameters. -/

/-- A `Transactions` row as the transfer endpoints read it. -/
structure TTx where
  transactionId : String
  description : String
  date : String
  type : String
  amount : ℚ
  accountId : String
  deriving DecidableEq, Repr, Inhabited

/-- A `TransactionsSlaves` row as the transfer endpoints read it. -/
structure TSlave where
  slaveId : String
  masterId : String
  accountId : String
  amount : ℚ
  type : String
  date : String
  deriving DecidableEq, Repr, Inhabited

/-- The store tables the transfer endpoints touch. -/
structure TDb where
  transactions : List TTx
  slaves : List TSlave
  accounts : List Account
  deriving DecidableEq, Repr, Inhabited

/-- HTTP-level failures (`HTTPException` status classes). -/
inductive ApiError where
  | notFound (detail : String)
  | badRequest (detail : String)
  | conflict (detail : String)
  | serverError (detail : String)
  deriving DecidableEq, Repr

/-- `date.split("T")[0] if "T" in date else date`: the day-granularity part
of an ISO datetime string. -/
def dayPart (s : String) : String := ⟨s.data.takeWhile (fun c => c != 'T')⟩

/-- `merge_transfer`: look both transactions up (404 when absent), validate
equal amounts, equal day-granularity dates, and that the id named credit
(debit) really has type credit (debit) — all before any write; then delete
every slave of the kept credit transaction (by slaveId), insert the one new
slave pointing at the debit transaction's account with the debit amount and
type `"debit"`, delete the debit transaction, and delete its slaves. -/
def merge_transfer (db : TDb) (credit_transaction_id debit_transaction_id : String)
    (freshSlaveId : String) : Except ApiError TDb :=
  match db.transactions.find? (fun t => t.transactionId == credit_transaction_id) with
  | none => .error (.notFound "Credit transaction not found")
  | some credit_tx =>
    match db.transactions.find? (fun t => t.transactionId == debit_transaction_id) with
    | none => .error (.notFound "Debit transaction not found")
    | some debit_tx =>
      if credit_tx.amount ≠ debit_tx.amount then
        .error (.badRequest ("Amounts do not match: " ++ toString credit_tx.amount ++
          " != " ++ toString debit_tx.amount))
      else if dayPart credit_tx.date ≠ dayPart debit_tx.date then
        .error (.badRequest ("Dates do not match: " ++ dayPart credit_tx.date ++
          " != " ++ dayPart debit_tx.date))
      else if lowerStr credit_tx.type ≠ "credit" then
        .error (.badRequest ("Credit transaction must have type credit, got " ++
          credit_tx.type))
      else if lowerStr debit_tx.type ≠ "debit" then
        .error (.badRequest ("Debit transaction must have type debit, got " ++
          debit_tx.type))
      else
        let existing_slaves := db.slaves.filter (fun s =>
          s.masterId == credit_tx.transactionId)
        let slaves1 := db.slaves.filter (fun s =>
          !(existing_slaves.any (fun e => e.slaveId == s.slaveId)))
        let new_slave : TSlave :=
          { slaveId := freshSlaveId, masterId := credit_tx.transactionId,
            accountId := debit_tx.accountId, amount := debit_tx.amount,
            type := "debit", date := credit_tx.date }
        let slaves2 := slaves1 ++ [new_slave]
        let transactions2 := db.transactions.filter (fun t =>
          !(t.transactionId == debit_tx.transactionId))
        let slaves3 := slaves2.filter (fun s =>
          !(s.masterId == debit_tx.transactionId))
        .ok { transactions := transactions2, slaves := slaves3,
              accounts := db.accounts }

/-- The slave inserted by a successful merge: on the kept credit master,
pointing at the debit transaction's account, with the debit amount, type
`"debit"` and the credit master's date. -/
def mergeNewSlave (ctx dtx : TTx) (freshSlaveId : String) : TSlave :=
  { slaveId := freshSlaveId, masterId := ctx.transactionId,
    accountId := dtx.accountId, amount := dtx.amount, type := "debit",
    date := ctx.date }

/-- The slave table produced by a successful merge: the kept master's old
slaves deleted by slaveId, the new transfer slave appended, then the debit
master's slaves deleted. -/
def mergeSlaves (db : TDb) (ctx dtx : TTx) (freshSlaveId : String) : List TSlave :=
  ((db.slaves.filter (fun s =>
    !((db.slaves.filter (fun e => e.masterId == ctx.transactionId)).any
      (fun e => e.slaveId == s.slaveId)))) ++
    [mergeNewSlave ctx dtx freshSlaveId]).filter (fun s =>
    !(s.masterId == dtx.transactionId))

/-- The Unknown-sentinel account lookup opening `split_slave` (500 when the
sentinel row is missing). -/
def findUnknownAccountId (db : TDb) : Option String :=
  ((db.accounts.filter (fun a => a.name == "Unknown" && a.category == "Unknown" &&
    a.sub_category == "Unknown" && a.is_real == false)).head?).map
    (fun a => a.accountId)

/-- `split_slave`: undo a merge.  Find the slave on the named transaction
(404s when absent) and require its account to be real (400); build the new
master on the slave's account and the inverse slave pointing back at the
original master's account; run the before/after debit/credit assertions
(−> 400 on failure) before any write; then insert the new master and slave
and rewrite the original slave's account to the Unknown sentinel.  Returns
the new store with the created master and slave. -/
def split_slave (db : TDb) (transaction_id slave_id : String)
    (freshTxId freshSlaveId : String) :
    Except ApiError (TDb × TTx × TSlave) :=
  match findUnknownAccountId db with
  | none => .error (.serverError "Unknown account not found in database")
  | some unknown_account_id =>
    match db.transactions.find? (fun t => t.transactionId == transaction_id) with
    | none => .error (.notFound "Transaction not found")
    | some transaction =>
      let slaves := db.slaves.filter (fun s => s.masterId == transaction_id)
      match slaves.find? (fun s => s.slaveId == slave_id) with
      | none => .error (.notFound "Slave not found")
      | some slave_to_split =>
        let slave_account_is_real :=
          match db.accounts.find? (fun a => a.accountId == slave_to_split.accountId) with
          | some a => a.is_real
          | none => false
        if ¬ (slave_account_is_real = true) then
          .error (.badRequest "Can only split slaves pointing to real accounts")
        else
          let master_type := lowerStr transaction.type
          let new_transaction : TTx :=
            { transactionId := freshTxId,
              description := "Split from transaction " ++ transaction_id,
              date := slave_to_split.date,
              type := if slave_to_split.type == "credit" then "credit" else "debit",
              amount := slave_to_split.amount,
              accountId := slave_to_split.accountId }
          let new_slave : TSlave :=
            { slaveId := freshSlaveId, masterId := freshTxId,
              accountId := transaction.accountId, amount := slave_to_split.amount,
              type := if slave_to_split.type == "credit" then "debit" else "credit",
              date := slave_to_split.date }
          if new_transaction.amount < 0 then
            .error (.badRequest "Balance validation failed: Transaction amount must be non-negative")
          else
            let master_debits_before :=
              (if master_type == "debit" then transaction.amount else 0) +
                (if slave_to_split.type == "debit" then slave_to_split.amount else 0)
            let master_credits_before :=
              (if master_type == "credit" then transaction.amount else 0) +
                (if slave_to_split.type == "credit" then slave_to_split.amount else 0)
            let master_debits_after :=
              (if new_transaction.type == "debit" then new_transaction.amount else 0) +
                (if new_slave.type == "debit" then new_slave.amount else 0)
            let master_credits_after :=
              (if new_transaction.type == "credit" then new_transaction.amount else 0) +
                (if new_slave.type == "credit" then new_slave.amount else 0)
            if master_debits_before ≠ master_debits_after then
              .error (.badRequest "Balance validation failed: Accounts debits mismatch")
            else if master_credits_before ≠ master_credits_after then
              .error (.badRequest "Balance validation failed: Accounts credits mismatch")
            else
              let updated_slaves := db.slaves.map (fun s =>
                if s.slaveId == slave_id then
                  { s with accountId := unknown_account_id } else s)
              .ok ({ transactions := db.transactions ++ [new_transaction],
                     slaves := updated_slaves ++ [new_slave],
                     accounts := db.accounts },
                   new_transaction, new_slave)

/-- The validations `merge_transfer` runs before any write: both
transactions exist, equal amounts, equal day-granularity dates, and the
transaction named credit (debit) really has that type. -/
def MergePreconds (db : TDb) (credit_transaction_id debit_transaction_id : String) : Prop :=
  ∃ ctx dtx,
    db.transactions.find? (fun t => t.transactionId == credit_transaction_id) = some ctx ∧
    db.transactions.find? (fun t => t.transactionId == debit_transaction_id) = some dtx ∧
    ctx.amount = dtx.amount ∧ dayPart ctx.date = dayPart dtx.date ∧
    lowerStr ctx.type = "credit" ∧ lowerStr dtx.type = "debit"

/-- A `RejectedTransferPairs` row (ids canonicalized, smaller first). -/
structure RejectedPair where
  transaction_id_1 : String
  transaction_id_2 : String
  rejected_reason : Option String
  deriving DecidableEq, Repr, Inhabited

/-- `reject_transfer_candidate`: canonicalize the pair with the smaller id
first, 409 when the canonical pair is already recorded, else insert it. -/
def reject_transfer_candidate (table : List RejectedPair)
    (credit_transaction_id debit_transaction_id : String)
    (rejected_reason : Option String) :
    Except ApiError (List RejectedPair × RejectedPair) :=
  let tx_id_1 := min credit_transaction_id debit_transaction_id
  let tx_id_2 := max credit_transaction_id debit_transaction_id
  let existing := table.filter (fun p =>
    p.transaction_id_1 == tx_id_1 && p.transaction_id_2 == tx_id_2)
  if !existing.isEmpty then
    .error (.conflict "This pair has already been rejected")
  else
    let record : RejectedPair :=
      { transaction_id_1 := tx_id_1, transaction_id_2 := tx_id_2,
        rejected_reason := rejected_reason }
    .ok (table ++ [record], record)

/-- `unreject_transfer_candidate`: delete the canonical pair's record, 404
when nothing matched (the store is then unchanged). -/
def unreject_transfer_candidate (table : List RejectedPair)
    (tx1_id tx2_id : String) : Except ApiError (List RejectedPair) :=
  let ordered_tx1 := min tx1_id tx2_id
  let ordered_tx2 := max tx1_id tx2_id
  let deleted := table.filter (fun p =>
    p.transaction_id_1 == ordered_tx1 && p.transaction_id_2 == ordered_tx2)
  let remaining := table.filter (fun p =>
    !(p.transaction_id_1 == ordered_tx1 && p.transaction_id_2 == ordered_tx2))
  if deleted.isEmpty then
    .error (.notFound "Rejected pair not found")
  else
    .ok remaining

/-! ## Concrete instances used by witnesses and counterexamples -/

/-- The Unknown sentinel account. -/
def unknownAccount0 : Account :=
  { accountId := "acct-u", name := "Unknown", category := "Unknown",
    sub_category := "Unknown", is_real := false }

/-- A sample date. -/
def date0 : LDate := { year := 2025, month := 1, day := 15 }

/-- A sample Unknown slave attached to master `"t1"`. -/
def w1slave : EmbeddedSlave :=
  { slaveId := "s1", masterId := "t1", accountId := "acct-u", amount := 100,
    type := "credit", date := date0, Accounts := unknownAccount0 }

/-- An uncategorized debit master of amount 100. -/
def w1tx : TransactionWithSlaves :=
  { transactionId := "t1", description := "CARREFOUR", date := date0,
    type := "debit", amount := 100, accountId := "acct-a",
    TransactionsSlaves := [w1slave] }

/-- A 70/30 split configuration. -/
def w1cfg : SimpleSplitConfig :=
  { splits := [{ account_id := "acct-food", percentage := 70 },
               { account_id := "acct-house", percentage := 30 }] }

/-- A credit master with two slaves (violating both the loan debit-type
check and the shared slave-count check at once). -/
def c2tx : TransactionWithSlaves :=
  { transactionId := "t2", description := "LOAN PAYMENT", date := date0,
    type := "credit", amount := 900, accountId := "acct-a",
    TransactionsSlaves := [w1slave, w1slave] }

/-- A loan configuration: 100 at 0%, 3 months. -/
def c4cfg : LoanConfig :=
  { loan_amount := 100, annual_rate := 0, duration_months := 3,
    start_date := { year := 2025, month := 1, day := 1 },
    capital_account_id := "acct-cap", interest_account_id := "acct-int" }

/-- A loan configuration: 1200 at 0%, 12 months. -/
def w5cfg : LoanConfig :=
  { loan_amount := 1200, annual_rate := 0, duration_months := 12,
    start_date := { year := 2025, month := 1, day := 1 },
    capital_account_id := "acct-cap", interest_account_id := "acct-int" }

/-- The Unknown slave of `w5tx`. -/
def w5slave : EmbeddedSlave :=
  { slaveId := "s5", masterId := "t5", accountId := "acct-u", amount := 100,
    type := "credit", date := { year := 2025, month := 3, day := 5 },
    Accounts := unknownAccount0 }

/-- An uncategorized debit master of amount 100 in March 2025
(payment number 3 of `w5cfg`). -/
def w5tx : TransactionWithSlaves :=
  { transactionId := "t5", description := "LOAN PAYMENT",
    date := { year := 2025, month := 3, day := 5 },
    type := "debit", amount := 100, accountId := "acct-a",
    TransactionsSlaves := [w5slave] }

/-- A balancing slave set for `w1tx`: one credit of 100. -/
def c3ok : List TransactionSlaveCreate :=
  [{ type := "credit", amount := 100, date := date0, accountId := "acct-x",
     masterId := "t1" }]

/-- A slave set off by exactly one cent against `w1tx`. -/
def c3bad : List TransactionSlaveCreate :=
  [{ type := "credit", amount := 10001/100, date := date0, accountId := "acct-x",
     masterId := "t1" }]

/-- A real bank account. -/
def bankAccountA : Account :=
  { accountId := "acct-a", name := "Banque A", category := "Bank",
    sub_category := "Checking", is_real := true }

/-- An uncategorized transaction row. -/
def w6ta : TxRow :=
  { transactionId := "m1", description := "AMAZON PRIME SUBSCRIPTION",
    date := date0, type := "debit", amount := 50, accountId := "acct-a" }

/-- The Unknown slave row of `w6ta`. -/
def w6slaveRow : SlaveRow :=
  { slaveId := "sl-m1", masterId := "m1", accountId := "acct-u", amount := 50,
    type := "credit", date := date0 }

/-- A store with one uncategorized transaction. -/
def w6db : Store :=
  { accounts := [unknownAccount0, bankAccountA], transactions := [w6ta],
    slaves := [w6slaveRow], rules := [] }

/-- An AND group: description contains both AMAZON and PRIME. -/
def w6group : ConditionGroup :=
  { operator := .and,
    conditions := [.contains "AMAZON", .contains "PRIME"] }

/-- A rule carrying `w6group`. -/
def w6rule : Rule :=
  { ruleId := "r1", description := "amazon prime", priority := 10,
    enabled := true, account_ids := [], transaction_filter := none,
    processor_config := .simple_split w1cfg, condition_groups := [w6group] }

/-- The store `w6db` with the Amazon rule installed. -/
def w7db : Store :=
  { accounts := [unknownAccount0, bankAccountA], transactions := [w6ta],
    slaves := [w6slaveRow], rules := [w6rule] }

/-- A second real bank account. -/
def realAccountB : Account :=
  { accountId := "acct-b", name := "Banque B", category := "Bank",
    sub_category := "Checking", is_real := true }

/-- A clean credit master on account A. -/
def c9ctx : TTx :=
  { transactionId := "c", description := "VIR RECU", date := "2025-01-15T00:00:00",
    type := "credit", amount := 100, accountId := "acct-a" }

/-- A clean debit master on account B, same day and amount. -/
def c9dtx : TTx :=
  { transactionId := "d", description := "VIR EMIS", date := "2025-01-15T08:30:00",
    type := "debit", amount := 100, accountId := "acct-b" }

/-- The Unknown slave of `c9ctx`. -/
def c9slaveC : TSlave :=
  { slaveId := "s-c", masterId := "c", accountId := "acct-u", amount := 100,
    type := "debit", date := "2025-01-15T00:00:00" }

/-- The Unknown slave of `c9dtx`. -/
def c9slaveD : TSlave :=
  { slaveId := "s-d", masterId := "d", accountId := "acct-u", amount := 100,
    type := "credit", date := "2025-01-15T08:30:00" }

/-- A store holding the clean transfer pair. -/
def exampleTDb : TDb :=
  { transactions := [c9ctx, c9dtx], slaves := [c9slaveC, c9slaveD],
    accounts := [unknownAccount0, bankAccountA, realAccountB] }

theorem roundHalfEven_intCast (m : ℤ) : roundHalfEven (m : ℚ) = m := by
  unfold roundHalfEven
  simp [Int.floor_intCast]

theorem round2_isCents (q : ℚ) : IsCents (round2 q) := ⟨roundHalfEven (q * 100), rfl⟩

theorem round2_eq_self_of_isCents {q : ℚ} (h : IsCents q) : round2 q = q := by
  obtain ⟨m, rfl⟩ := h
  unfold round2
  have : (m : ℚ) / 100 * 100 = (m : ℚ) := by ring
  rw [this, roundHalfEven_intCast]

theorem IsCents.sub {a b : ℚ} (ha : IsCents a) (hb : IsCents b) : IsCents (a - b) := by
  obtain ⟨m, rfl⟩ := ha
  obtain ⟨n, rfl⟩ := hb
  exact ⟨m - n, by push_cast; ring⟩

theorem IsCents.neg {a : ℚ} (ha : IsCents a) : IsCents (-a) := by
  obtain ⟨m, rfl⟩ := ha
  exact ⟨-m, by push_cast; ring⟩

theorem IsCents.add {a b : ℚ} (ha : IsCents a) (hb : IsCents b) : IsCents (a + b) := by
  obtain ⟨m, rfl⟩ := ha
  obtain ⟨n, rfl⟩ := hb
  exact ⟨m + n, by push_cast; ring⟩

theorem round2_intCast (m : ℤ) : round2 (m : ℚ) = m := by
  have h : round2 ((m * 100 : ℤ) / 100 : ℚ) = ((m * 100 : ℤ) : ℚ) / 100 :=
    round2_eq_self_of_isCents ⟨m * 100, rfl⟩
  have h2 : ((m * 100 : ℤ) : ℚ) / 100 = (m : ℚ) := by push_cast; ring
  rw [h2] at h
  exact h

/-- Every slave draft generated by `SimpleSplitProcessor.process` carries the
inverted type, the master's date and the master's id. -/
theorem simpleSplit_generated_fields (t : TransactionWithSlaves)
    (config : SimpleSplitConfig) (last_split : SplitItem)
    (sl : TransactionSlaveCreate)
    (hmem : sl ∈ simpleSplitFirstSlaves t config ++
      [({ masterId := t.transactionId, accountId := last_split.account_id,
          amount := |t.amount| - ((simpleSplitFirstSlaves t config).map
            (fun s => s.amount)).sum,
          type := invertedType t, date := t.date } : TransactionSlaveCreate)]) :
    sl.type = invertedType t ∧ sl.date = t.date ∧ sl.masterId = t.transactionId := by
  rw [List.mem_append] at hmem
  rcases hmem with hmem | hmem
  · unfold simpleSplitFirstSlaves at hmem
    rw [List.mem_map] at hmem
    obtain ⟨sp, _, rfl⟩ := hmem
    exact ⟨rfl, rfl, rfl⟩
  · rw [List.mem_singleton] at hmem
    subst hmem
    exact ⟨rfl, rfl, rfl⟩

/-- The generated amounts sum to `|master.amount|` exactly: the last slave
absorbs the rounding error of the previous ones. -/
theorem simpleSplit_sum (t : TransactionWithSlaves) (config : SimpleSplitConfig)
    (last_split : SplitItem) :
    (((simpleSplitFirstSlaves t config ++
      [({ masterId := t.transactionId, accountId := last_split.account_id,
          amount := |t.amount| - ((simpleSplitFirstSlaves t config).map
            (fun s => s.amount)).sum,
          type := invertedType t, date := t.date } : TransactionSlaveCreate)]).map
        (fun s => s.amount)).sum : ℚ) = |t.amount| := by
  rw [List.map_append, List.sum_append]
  simp only [List.map_cons, List.map_nil, List.sum_cons, List.sum_nil]
  ring

/-- If every slave draft's type is string `ty`, the total of the drafts with
a different type string is zero and the total with type `ty` is the full sum. -/
theorem total_of_uniform_type (ns : List TransactionSlaveCreate) (ty other : String)
    (hall : ∀ sl ∈ ns, sl.type = ty) (hne : ty ≠ other) :
    ((ns.filter (fun s => s.type == other)).map (fun s => s.amount)).sum = 0 ∧
      ((ns.filter (fun s => s.type == ty)).map (fun s => s.amount)).sum =
        (ns.map (fun s => s.amount)).sum := by
  constructor
  · have h : ns.filter (fun s => s.type == other) = [] := by
      rw [List.filter_eq_nil_iff]
      intro a ha
      simp only [beq_iff_eq]
      rw [hall a ha]
      exact hne
    rw [h]
    simp
  · have h : ns.filter (fun s => s.type == ty) = ns := by
      rw [List.filter_eq_self]
      intro a ha
      simp only [beq_iff_eq]
      exact hall a ha
    rw [h]

/-- C1.  For a valid `SimpleSplitConfig` (percentages summing to 100) and a
master transaction holding exactly one Unknown slave, `process` succeeds and
emits one slave per split in the configured order: each non-last slave has
amount `round(|master.amount| * percentage / 100, 2)`, the last receives
`|master.amount|` minus the sum of the previous rounded amounts, all with
the type opposite to the master's and the master's date — and the emitted
amounts sum exactly to `|master.amount|` regardless of per-split rounding. -/
theorem simple_split_process_spec (t : TransactionWithSlaves)
    (config : SimpleSplitConfig) (hvalid : config.Valid)
    (hslaves : ∃ s, t.TransactionsSlaves = [s] ∧ isUnknownAccount s.Accounts = true)
    (hamount : 0 ≤ t.amount)
    (htype : lowerStr t.type = "credit" ∨ lowerStr t.type = "debit") :
    ∃ last_split, config.splits.getLast? = some last_split ∧
      SimpleSplitProcessor.process t config =
        { success := true
          slaves := simpleSplitFirstSlaves t config ++
            [{ masterId := t.transactionId, accountId := last_split.account_id,
               amount := |t.amount| - ((simpleSplitFirstSlaves t config).map
                 (fun s => s.amount)).sum,
               type := invertedType t, date := t.date }]
          error_message := none } ∧
      (simpleSplitFirstSlaves t config = config.splits.dropLast.map (fun split =>
        { masterId := t.transactionId, accountId := split.account_id,
          amount := round2 (|t.amount| * split.percentage / 100),
          type := invertedType t, date := t.date })) ∧
      (∀ sl ∈ (SimpleSplitProcessor.process t config).slaves,
        sl.type = invertedType t ∧ sl.date = t.date ∧ sl.masterId = t.transactionId) ∧
      (((SimpleSplitProcessor.process t config).slaves.map
        (fun s => s.amount)).sum = |t.amount|) ∧
      (SimpleSplitProcessor.process t config).slaves.length = config.splits.length := by
  obtain ⟨s, hs, hu⟩ := hslaves
  obtain ⟨hne, _, _⟩ := hvalid
  obtain ⟨last_split, hlast⟩ : ∃ ls, config.splits.getLast? = some ls := by
    cases h : config.splits.getLast? with
    | none => exact absurd (List.getLast?_eq_none_iff.mp h) hne
    | some ls => exact ⟨ls, rfl⟩
  refine ⟨last_split, hlast, ?_⟩
  set L := simpleSplitFirstSlaves t config with hL
  set lastSlave : TransactionSlaveCreate :=
    { masterId := t.transactionId, accountId := last_split.account_id,
      amount := |t.amount| - (L.map (fun s => s.amount)).sum,
      type := invertedType t, date := t.date } with hlastSlave
  have habs : |t.amount| = t.amount := abs_of_nonneg hamount
  have htypes : ∀ sl ∈ L ++ [lastSlave], sl.type = invertedType t := by
    intro sl hsl
    exact (simpleSplit_generated_fields t config last_split sl hsl).1
  have hsum : ((L ++ [lastSlave]).map (fun s => s.amount)).sum = |t.amount| :=
    simpleSplit_sum t config last_split
  have hbal : signedSlaves (L ++ [lastSlave]) = signedMaster t := by
    rcases htype with hcred | hdeb
    · have hinv : invertedType t = "debit" := by
        unfold invertedType
        rw [hcred]
        rfl
      rw [hinv] at htypes
      obtain ⟨hzero, hfull⟩ := total_of_uniform_type (L ++ [lastSlave])
        "debit" "credit" htypes (by decide)
      unfold signedSlaves signedMaster totalCredit totalDebit
      rw [hcred, hzero, hfull, hsum, habs, if_neg (by decide)]
      ring
    · have hinv : invertedType t = "credit" := by
        unfold invertedType
        rw [hdeb]
        rfl
      rw [hinv] at htypes
      obtain ⟨hzero, hfull⟩ := total_of_uniform_type (L ++ [lastSlave])
        "credit" "debit" htypes (by decide)
      unfold signedSlaves signedMaster totalCredit totalDebit
      rw [hdeb, hzero, hfull, hsum, habs, if_pos (by decide)]
      ring
  have hval : validate_transaction t (L ++ [lastSlave]) = .ok () := by
    unfold validate_transaction
    rw [hs]
    simp only [List.length_singleton, List.headD_cons]
    rw [hu, hbal]
    simp
  have hproc : SimpleSplitProcessor.process t config =
      { success := true, slaves := L ++ [lastSlave], error_message := none } := by
    unfold SimpleSplitProcessor.process
    rw [hlast]
    simp only
    rw [hval]
  refine ⟨hproc, rfl, ?_, ?_, ?_⟩
  · rw [hproc]
    exact fun sl hsl => simpleSplit_generated_fields t config last_split sl hsl
  · rw [hproc]
    exact hsum
  · rw [hproc]
    simp only [List.length_append, List.length_singleton]
    rw [hL]
    unfold simpleSplitFirstSlaves
    rw [List.length_map, List.length_dropLast]
    have : config.splits.length ≠ 0 := fun h => hne (List.length_eq_zero.mp h)
    omega

/-- C1 witness: the 70/30 split of a debit master of amount 100 succeeds,
emits two slaves and their amounts sum to exactly 100. -/
theorem simple_split_process_spec_witness :
    (SimpleSplitProcessor.process w1tx w1cfg).success = true ∧
      ((SimpleSplitProcessor.process w1tx w1cfg).slaves.map
        (fun s => s.amount)).sum = 100 ∧
      (SimpleSplitProcessor.process w1tx w1cfg).slaves.length = 2 := by
  have hvalid : w1cfg.Valid := by
    refine ⟨by decide, ?_, ?_⟩
    · intro s hs
      simp only [w1cfg, List.mem_cons, List.not_mem_nil, or_false] at hs
      rcases hs with rfl | rfl <;> norm_num
    · simp only [w1cfg, List.map_cons, List.map_nil, List.sum_cons, List.sum_nil]
      norm_num
  have h := simple_split_process_spec w1tx w1cfg hvalid
    ⟨w1slave, rfl, by decide⟩ (by norm_num [w1tx]) (Or.inr (by decide))
  obtain ⟨ls, _, _, _, _, hsum, hlen⟩ := h
  refine ⟨?_, ?_, ?_⟩
  · obtain ⟨_, _, hproc, _⟩ := simple_split_process_spec w1tx w1cfg hvalid
      ⟨w1slave, rfl, by decide⟩ (by norm_num [w1tx]) (Or.inr (by decide))
    rw [hproc]
  · rw [hsum]
    norm_num [w1tx]
  · rw [hlen]
    decide

theorem lowerStr_debit : lowerStr "debit" = "debit" := by decide

theorem lowerStr_credit : lowerStr "credit" = "credit" := by decide

/-- C2 counterexample: the shared slave-count check does not run before
processor-specific computation.  `c2tx` is a credit master with two slaves;
the claim says processing must fail with the "2 slaves, expected 1" message,
but `LoanProcessor.process` fails with its own debit-type message instead. -/
theorem shared_checks_order_counterexample :
    c2tx.TransactionsSlaves.length = 2 ∧
      LoanProcessor.process c2tx c4cfg =
        { success := false, slaves := [],
          error_message := some "Loan payment must be debit type, got credit" } ∧
      some "Loan payment must be debit type, got credit" ≠
        some ("Transaction " ++ c2tx.transactionId ++ " has " ++
          toString c2tx.TransactionsSlaves.length ++ " slaves, expected 1") := by
  refine ⟨by decide, ?_, by decide⟩
  unfold LoanProcessor.process
  rw [if_pos (by decide)]
  rfl

/-- C2 (amended).  Within the shared validator the checks run in the stated
order, failing on the first violated one: wrong slave count yields the
"N slaves, expected 1" message; a single slave not on the Unknown sentinel
yields the message naming the actual account; only when both pass does the
outcome depend on the balance check.  But the validator runs after
processor-specific computation, so a processor's own checks (such as
`LoanProcessor`'s debit-type check) can fail first. -/
theorem shared_checks_order (t : TransactionWithSlaves)
    (ns : List TransactionSlaveCreate) :
    (t.TransactionsSlaves.length ≠ 1 →
      validate_transaction t ns = .error ("Transaction " ++ t.transactionId ++
        " has " ++ toString t.TransactionsSlaves.length ++ " slaves, expected 1")) ∧
    (∀ s, t.TransactionsSlaves = [s] → isUnknownAccount s.Accounts = false →
      validate_transaction t ns = .error ("Transaction " ++ t.transactionId ++
        " slave points to " ++ s.Accounts.name ++ ", not Unknown")) ∧
    (∀ s, t.TransactionsSlaves = [s] → isUnknownAccount s.Accounts = true →
      (validate_transaction t ns = .ok () ↔
        round2 (signedMaster t) = round2 (signedSlaves ns))) ∧
    (∀ config : LoanConfig, lowerStr t.type ≠ "debit" →
      LoanProcessor.process t config =
        { success := false, slaves := [],
          error_message := some ("Loan payment must be debit type, got " ++ t.type) }) := by
  refine ⟨?_, ?_, ?_, ?_⟩
  · intro h
    unfold validate_transaction
    rw [if_pos h]
  · intro s hs hu
    unfold validate_transaction
    rw [hs]
    simp only [List.length_singleton, List.headD_cons]
    rw [if_neg (by simp), if_pos (by simp [hu])]
  · intro s hs hu
    unfold validate_transaction
    rw [hs]
    simp only [List.length_singleton, List.headD_cons]
    rw [if_neg (by simp), if_neg (by simp [hu])]
    by_cases h : round2 (signedMaster t) = round2 (signedSlaves ns)
    · rw [if_neg (by simp [h])]
      simp [h]
    · rw [if_pos h]
      simp [h]
  · intro config h
    unfold LoanProcessor.process
    rw [if_pos h]

/-- C2 witness: on a master with two slaves the shared validator itself
fails with the slave-count message; on a non-debit master the loan
processor's own check fires first. -/
theorem shared_checks_order_witness :
    validate_transaction c2tx [] = .error ("Transaction " ++ c2tx.transactionId ++
      " has " ++ toString c2tx.TransactionsSlaves.length ++ " slaves, expected 1") ∧
    LoanProcessor.process c2tx c4cfg =
      { success := false, slaves := [],
        error_message := some ("Loan payment must be debit type, got " ++ c2tx.type) } :=
  ⟨(shared_checks_order c2tx []).1 (by decide),
    (shared_checks_order c2tx []).2.2.2 c4cfg (by decide)⟩

/-- C3.  For a master passing the two preconditions, the shared balance
validator accepts a slave set iff the two-decimal-rounded signed master
amount equals the two-decimal-rounded signed slave total — exact equality of
the rounded values, with no slack; any mismatch of the rounded values is
rejected with an error. -/
theorem balance_validator_exact (t : TransactionWithSlaves)
    (ns : List TransactionSlaveCreate) (s : EmbeddedSlave)
    (hs : t.TransactionsSlaves = [s]) (hu : isUnknownAccount s.Accounts = true) :
    (validate_transaction t ns = .ok () ↔
      round2 (signedMaster t) = round2 (signedSlaves ns)) ∧
    (round2 (signedMaster t) ≠ round2 (signedSlaves ns) →
      ∃ e, validate_transaction t ns = .error e) := by
  have hiff : validate_transaction t ns = .ok () ↔
      round2 (signedMaster t) = round2 (signedSlaves ns) := by
    unfold validate_transaction
    rw [hs]
    simp only [List.length_singleton, List.headD_cons]
    rw [if_neg (by simp), if_neg (by simp [hu])]
    by_cases h : round2 (signedMaster t) = round2 (signedSlaves ns)
    · rw [if_neg (by simp [h])]
      simp [h]
    · rw [if_pos h]
      simp [h]
  refine ⟨hiff, fun hne => ?_⟩
  cases hv : validate_transaction t ns with
  | error e => exact ⟨e, rfl⟩
  | ok u =>
    cases u
    exact absurd (hiff.mp hv) hne

/-- C3 witness: against the debit master of amount 100, a single credit
slave of 100 is accepted, while one of 100.01 (rounded signed values
differing by exactly 0.01) is rejected. -/
theorem balance_validator_exact_witness :
    validate_transaction w1tx c3ok = .ok () ∧
      validate_transaction w1tx c3bad ≠ .ok () := by
  have hm : round2 (signedMaster w1tx) = -100 := by
    unfold signedMaster
    have ht : w1tx.type = "debit" := rfl
    rw [ht, lowerStr_debit, if_pos (by decide)]
    have h := round2_intCast (-100)
    push_cast at h
    have ha : w1tx.amount = 100 := rfl
    rw [ha]
    exact h
  have hok : round2 (signedSlaves c3ok) = -100 := by
    have h1 : signedSlaves c3ok = -100 := by
      unfold signedSlaves totalCredit totalDebit c3ok
      simp
    rw [h1]
    have h := round2_intCast (-100)
    push_cast at h
    exact h
  have hbad : round2 (signedSlaves c3bad) = -(10001/100) := by
    have h1 : signedSlaves c3bad = -(10001/100) := by
      unfold signedSlaves totalCredit totalDebit c3bad
      simp
    rw [h1]
    exact round2_eq_self_of_isCents ⟨-10001, by push_cast; ring⟩
  constructor
  · exact (balance_validator_exact w1tx c3ok w1slave rfl (by decide)).1.mpr
      (by rw [hm, hok])
  · intro h
    have := (balance_validator_exact w1tx c3bad w1slave rfl (by decide)).1.mp h
    rw [hm, hbad] at this
    norm_num at this

theorem roundHalfEven_def (q : ℚ) : roundHalfEven q =
    if q - (⌊q⌋ : ℚ) < 1/2 then ⌊q⌋
    else if 1/2 < q - (⌊q⌋ : ℚ) then ⌊q⌋ + 1
    else if Even ⌊q⌋ then ⌊q⌋ else ⌊q⌋ + 1 := rfl

theorem roundHalfEven_eq_of_lt (q : ℚ) (n : ℤ) (h1 : (n : ℚ) ≤ q)
    (h2 : q - (n : ℚ) < 1/2) : roundHalfEven q = n := by
  have hf : ⌊q⌋ = n := by
    rw [Int.floor_eq_iff]
    refine ⟨h1, ?_⟩
    linarith
  rw [roundHalfEven_def, hf, if_pos h2]

theorem breakdownRaw_succ (k : ℕ) (config : LoanConfig) :
    breakdownRaw (k + 1) config = breakdownStep config.duration_months
      (calculate_monthly_payment config.loan_amount config.annual_rate
        config.duration_months)
      (config.annual_rate / 100 / 12) (breakdownRaw k config) (k + 1) := by
  unfold breakdownRaw
  rw [List.range'_concat, List.foldl_append]
  simp [Nat.add_comm]

/-- C4 (amended).  For every valid config, `calculate_payment_breakdown` at
the final period returns remaining balance 0, and on the final period the
computation forces principal = remaining balance exactly and interest =
monthly_payment − principal before zeroing the balance; hence the
**pre-rounding** principal and interest sum exactly to the monthly payment.
The returned principal and interest are these values rounded to two
decimals, so their sum equals the monthly payment only up to that
rounding. -/
theorem loan_payoff (config : LoanConfig) (hdur : 0 < config.duration_months) :
    (breakdownRaw config.duration_months config).2.2 = 0 ∧
    breakdownRaw config.duration_months config =
      ((breakdownRaw (config.duration_months - 1) config).2.2,
       calculate_monthly_payment config.loan_amount config.annual_rate
           config.duration_months -
         (breakdownRaw (config.duration_months - 1) config).2.2, 0) ∧
    (breakdownRaw config.duration_months config).1 +
        (breakdownRaw config.duration_months config).2.1 =
      calculate_monthly_payment config.loan_amount config.annual_rate
        config.duration_months ∧
    calculate_payment_breakdown config.duration_months config =
      (round2 (breakdownRaw config.duration_months config).1,
       round2 (breakdownRaw config.duration_months config).2.1, 0) := by
  have hstep : breakdownRaw config.duration_months config =
      breakdownStep config.duration_months
        (calculate_monthly_payment config.loan_amount config.annual_rate
          config.duration_months)
        (config.annual_rate / 100 / 12)
        (breakdownRaw (config.duration_months - 1) config)
        config.duration_months := by
    have h := breakdownRaw_succ (config.duration_months - 1) config
    rw [show config.duration_months - 1 + 1 = config.duration_months from by omega] at h
    exact h
  have hfinal : breakdownRaw config.duration_months config =
      ((breakdownRaw (config.duration_months - 1) config).2.2,
       calculate_monthly_payment config.loan_amount config.annual_rate
           config.duration_months -
         (breakdownRaw (config.duration_months - 1) config).2.2, 0) := by
    rw [hstep]
    unfold breakdownStep
    rw [if_pos rfl]
  refine ⟨by rw [hfinal], hfinal, by rw [hfinal]; ring, ?_⟩
  unfold calculate_payment_breakdown
  rw [hfinal]
  have h0 : round2 0 = 0 := by
    have h := round2_intCast 0
    push_cast at h
    exact h
  simp only [h0]

/-- C4 counterexample: for the valid config `c4cfg` (100 at 0% over 3
months), the **returned** (rounded) principal 33.33 and interest 0 do not
sum to the monthly payment 100/3, contradicting the claim's
`principal + interest == monthly_payment` for the returned values. -/
theorem loan_payoff_counterexample :
    calculate_payment_breakdown 3 c4cfg = (3333/100, 0, 0) ∧
      calculate_monthly_payment c4cfg.loan_amount c4cfg.annual_rate
        c4cfg.duration_months = 100/3 ∧
      (3333/100 : ℚ) + 0 ≠ 100/3 := by
  have hM : calculate_monthly_payment c4cfg.loan_amount c4cfg.annual_rate
      c4cfg.duration_months = 100/3 := by
    unfold calculate_monthly_payment
    rw [if_pos (show c4cfg.annual_rate = 0 from rfl)]
    show (100 : ℚ) / ((3 : ℕ) : ℚ) = 100/3
    norm_num
  have hr : c4cfg.annual_rate / 100 / 12 = 0 := by
    show (0 : ℚ) / 100 / 12 = 0
    norm_num
  have h0 : breakdownRaw 0 c4cfg = (0, 0, 100) := by
    unfold breakdownRaw
    rfl
  have h1 : breakdownRaw 1 c4cfg = (100/3, 0, 200/3) := by
    rw [show (1 : ℕ) = 0 + 1 from rfl, breakdownRaw_succ, hM, hr, h0]
    unfold breakdownStep
    rw [if_neg (by decide)]
    norm_num
  have h2 : breakdownRaw 2 c4cfg = (100/3, 0, 100/3) := by
    rw [show (2 : ℕ) = 1 + 1 from rfl, breakdownRaw_succ, hM, hr, h1]
    unfold breakdownStep
    rw [if_neg (by decide)]
    norm_num
  have h3 : breakdownRaw 3 c4cfg = (100/3, 0, 0) := by
    rw [show (3 : ℕ) = 2 + 1 from rfl, breakdownRaw_succ, hM, hr, h2]
    unfold breakdownStep
    rw [if_pos (show 2 + 1 = c4cfg.duration_months from rfl)]
    norm_num
  have hround : round2 (100/3) = 3333/100 := by
    unfold round2
    have h : roundHalfEven (100/3 * 100) = 3333 := by
      apply roundHalfEven_eq_of_lt
      · push_cast
        norm_num
      · push_cast
        norm_num
    rw [h]
    norm_num
  have hr0 : round2 0 = 0 := by
    have h := round2_intCast 0
    push_cast at h
    exact h
  refine ⟨?_, hM, by norm_num⟩
  unfold calculate_payment_breakdown
  rw [h3]
  simp only [hround, hr0]

/-- C4 witness: the amended payoff property instantiated at `c4cfg`. -/
theorem loan_payoff_witness :
    (breakdownRaw c4cfg.duration_months c4cfg).2.2 = 0 ∧
      (breakdownRaw c4cfg.duration_months c4cfg).1 +
          (breakdownRaw c4cfg.duration_months c4cfg).2.1 =
        calculate_monthly_payment c4cfg.loan_amount c4cfg.annual_rate
          c4cfg.duration_months :=
  ⟨(loan_payoff c4cfg (by decide)).1, (loan_payoff c4cfg (by decide)).2.2.1⟩

/-- The shared validator succeeds on a single-Unknown-slave master exactly
when the rounded signed totals agree. -/
theorem validate_transaction_ok_iff (t : TransactionWithSlaves)
    (ns : List TransactionSlaveCreate) (s : EmbeddedSlave)
    (hs : t.TransactionsSlaves = [s]) (hu : isUnknownAccount s.Accounts = true) :
    validate_transaction t ns = .ok () ↔
      round2 (signedMaster t) = round2 (signedSlaves ns) := by
  unfold validate_transaction
  rw [hs]
  simp only [List.length_singleton, List.headD_cons]
  rw [if_neg (by simp), if_neg (by simp [hu])]
  by_cases h : round2 (signedMaster t) = round2 (signedSlaves ns)
  · rw [if_neg (by simp [h])]
    simp [h]
  · rw [if_pos h]
    simp [h]

/-- The signed slave total of an interest/capital pair of credit slaves. -/
theorem signedSlaves_two_credit (a b : TransactionSlaveCreate)
    (ha : a.type = "credit") (hb : b.type = "credit") :
    signedSlaves [a, b] = -(a.amount + b.amount) := by
  unfold signedSlaves totalCredit totalDebit
  simp [List.filter, ha, hb]

/-- C5.  For a debit master within the loan term that passes the shared
preconditions, `LoanProcessor.process` emits exactly two credit slaves
dated at the master's date: the theoretical period-`k` interest to the
interest account (never derived from the paid amount) and
`round(|amount| − interest, 2)` to the capital account, so capital absorbs
any schedule/paid difference; a non-debit master, or a payment number
outside `1..duration_months` (a date before the start yields the
`get_payment_number` failure), produces a tagged failure result with no
slaves — never an exception (the model is a total function). -/
theorem loan_process_spec (t : TransactionWithSlaves) (config : LoanConfig) :
    (∀ s (k : ℤ), lowerStr t.type = "debit" →
      t.TransactionsSlaves = [s] → isUnknownAccount s.Accounts = true →
      0 ≤ t.amount → IsCents t.amount →
      get_payment_number t.date config.start_date = .ok k →
      k ≤ (config.duration_months : ℤ) →
      LoanProcessor.process t config =
        { success := true
          slaves := [
            { masterId := t.transactionId, accountId := config.interest_account_id,
              amount := (calculate_payment_breakdown k.toNat config).2.1,
              type := "credit", date := t.date },
            { masterId := t.transactionId, accountId := config.capital_account_id,
              amount := round2 (|t.amount| -
                (calculate_payment_breakdown k.toNat config).2.1),
              type := "credit", date := t.date }]
          error_message := none }) ∧
    (lowerStr t.type ≠ "debit" →
      (LoanProcessor.process t config).success = false ∧
        (LoanProcessor.process t config).slaves = []) ∧
    (∀ k : ℤ, get_payment_number t.date config.start_date = .ok k →
      k > (config.duration_months : ℤ) →
      (LoanProcessor.process t config).success = false ∧
        (LoanProcessor.process t config).slaves = []) ∧
    (∀ e, get_payment_number t.date config.start_date = .error e →
      (LoanProcessor.process t config).success = false ∧
        (LoanProcessor.process t config).slaves = []) := by
  refine ⟨?_, ?_, ?_, ?_⟩
  · intro s k hdeb hs hu hamt hc hk hk2
    have habs : |t.amount| = t.amount := abs_of_nonneg hamt
    set interest := (calculate_payment_breakdown k.toNat config).2.1 with hi
    have hicents : IsCents interest := by
      rw [hi]
      unfold calculate_payment_breakdown
      exact round2_isCents _
    set islave : TransactionSlaveCreate :=
      { masterId := t.transactionId, accountId := config.interest_account_id,
        amount := interest, type := "credit", date := t.date } with hislave
    set cslave : TransactionSlaveCreate :=
      { masterId := t.transactionId, accountId := config.capital_account_id,
        amount := round2 (|t.amount| - interest), type := "credit",
        date := t.date } with hcslave
    have hcap : round2 (|t.amount| - interest) = t.amount - interest := by
      rw [habs]
      exact round2_eq_self_of_isCents (hc.sub hicents)
    have hval : validate_transaction t [islave, cslave] = .ok () := by
      rw [validate_transaction_ok_iff t [islave, cslave] s hs hu]
      have h1 : signedSlaves [islave, cslave] = -t.amount := by
        rw [signedSlaves_two_credit islave cslave rfl rfl]
        show -(interest + round2 (|t.amount| - interest)) = -t.amount
        rw [hcap]
        ring
      have h2 : signedMaster t = -t.amount := by
        unfold signedMaster
        rw [if_pos (by simp [hdeb])]
      rw [h1, h2]
    unfold LoanProcessor.process
    rw [if_neg (by simp [hdeb])]
    simp only [hk]
    rw [if_neg (by omega)]
    simp only [← hi, ← hislave, ← hcslave, hval]
  · intro h
    unfold LoanProcessor.process
    rw [if_pos h]
    exact ⟨rfl, rfl⟩
  · intro k hk hgt
    unfold LoanProcessor.process
    by_cases hd : lowerStr t.type ≠ "debit"
    · rw [if_pos hd]
      exact ⟨rfl, rfl⟩
    · rw [if_neg hd]
      simp only [hk]
      rw [if_pos hgt]
      exact ⟨rfl, rfl⟩
  · intro e he
    unfold LoanProcessor.process
    by_cases hd : lowerStr t.type ≠ "debit"
    · rw [if_pos hd]
      exact ⟨rfl, rfl⟩
    · rw [if_neg hd]
      simp only [he]
      exact ⟨by trivial, by trivial⟩

/-- C5 witness: payment 3 of the 1200-at-0% loan against a debit master of
100 yields exactly the interest slave (0, theoretical) and the capital
slave (100, absorbing the whole paid amount). -/
theorem loan_process_spec_witness :
    LoanProcessor.process w5tx w5cfg =
      { success := true
        slaves := [
          { masterId := "t5", accountId := "acct-int", amount := 0,
            type := "credit", date := w5tx.date },
          { masterId := "t5", accountId := "acct-cap", amount := 100,
            type := "credit", date := w5tx.date }]
        error_message := none } := by
  have hM : calculate_monthly_payment w5cfg.loan_amount w5cfg.annual_rate
      w5cfg.duration_months = 100 := by
    unfold calculate_monthly_payment
    rw [if_pos (show w5cfg.annual_rate = 0 from rfl)]
    show (1200 : ℚ) / ((12 : ℕ) : ℚ) = 100
    norm_num
  have hr : w5cfg.annual_rate / 100 / 12 = 0 := by
    show (0 : ℚ) / 100 / 12 = 0
    norm_num
  have h0 : breakdownRaw 0 w5cfg = (0, 0, 1200) := by
    unfold breakdownRaw
    rfl
  have h1 : breakdownRaw 1 w5cfg = (100, 0, 1100) := by
    rw [show (1 : ℕ) = 0 + 1 from rfl, breakdownRaw_succ, hM, hr, h0]
    unfold breakdownStep
    rw [if_neg (by decide)]
    norm_num
  have h2 : breakdownRaw 2 w5cfg = (100, 0, 1000) := by
    rw [show (2 : ℕ) = 1 + 1 from rfl, breakdownRaw_succ, hM, hr, h1]
    unfold breakdownStep
    rw [if_neg (by decide)]
    norm_num
  have h3 : breakdownRaw 3 w5cfg = (100, 0, 900) := by
    rw [show (3 : ℕ) = 2 + 1 from rfl, breakdownRaw_succ, hM, hr, h2]
    unfold breakdownStep
    rw [if_neg (by decide)]
    norm_num
  have hr0 : round2 0 = 0 := by
    have h := round2_intCast 0
    push_cast at h
    exact h
  have hint : (calculate_payment_breakdown ((3 : ℤ)).toNat w5cfg).2.1 = 0 := by
    show (calculate_payment_breakdown 3 w5cfg).2.1 = 0
    unfold calculate_payment_breakdown
    rw [h3]
    exact hr0
  have hproc := (loan_process_spec w5tx w5cfg).1 w5slave 3 (by decide) rfl
    (by decide) (by show (0 : ℚ) ≤ 100; norm_num)
    ⟨10000, by show (100 : ℚ) = ((10000 : ℤ) : ℚ) / 100; push_cast; norm_num⟩
    (by rfl) (by decide)
  rw [hproc, hint]
  have hcap : round2 (|w5tx.amount| - 0) = 100 := by
    show round2 (|(100 : ℚ)| - 0) = 100
    rw [show |(100 : ℚ)| - 0 = ((100 : ℤ) : ℚ) from by push_cast; norm_num]
    rw [round2_intCast]
    norm_num
  rw [hcap]
  rfl

/-! ## Matching engine lemmas -/

theorem filterSingleSlave_append (a b : List TransactionWithSlaves) :
    filterSingleSlave (a ++ b) = filterSingleSlave a ++ filterSingleSlave b := by
  unfold filterSingleSlave
  exact List.filter_append a b

theorem mem_filterSingleSlave (l : List TransactionWithSlaves)
    (r : TransactionWithSlaves) :
    r ∈ filterSingleSlave l ↔ r ∈ l ∧ r.TransactionsSlaves.length = 1 := by
  unfold filterSingleSlave
  rw [List.mem_filter]
  simp

theorem insertNew_append (acc b c : List TransactionWithSlaves) :
    insertNew acc (b ++ c) = insertNew (insertNew acc b) c := by
  unfold insertNew
  rw [List.foldl_append]

/-- The pagination loop yields exactly the single-slave filter of the full
filtered result set, combined into the accumulator. -/
theorem fetchLoop_eq
    (f : List TransactionWithSlaves → List TransactionWithSlaves →
      List TransactionWithSlaves)
    (hnil : ∀ a, f a [] = a)
    (hf : ∀ a b c, f (f a b) c = f a (b ++ c))
    (results : List TransactionWithSlaves) (ps : ℕ) (hps : 0 < ps) :
    ∀ offset acc, fetchLoop f results ps offset acc =
      f acc (filterSingleSlave (results.drop offset)) := by
  have main : ∀ n offset acc, results.length - offset ≤ n →
      fetchLoop f results ps offset acc =
        f acc (filterSingleSlave (results.drop offset)) := by
    intro n
    induction n with
    | zero =>
      intro offset acc h
      have hdrop : results.drop offset = [] := by
        rw [List.drop_eq_nil_iff]
        omega
      rw [fetchLoop, hdrop]
      simp only [List.take_nil, List.isEmpty_nil, dite_true]
      rw [show filterSingleSlave [] = [] from rfl, hnil]
    | succ n ih =>
      intro offset acc h
      rw [fetchLoop]
      by_cases h1 : ((results.drop offset).take ps).isEmpty
      · rw [dif_pos h1]
        have hdrop : results.drop offset = [] := by
          rcases List.take_eq_nil_iff.mp (List.isEmpty_iff.mp h1) with h' | h'
          · omega
          · exact h'
        rw [hdrop]
        rw [show filterSingleSlave [] = [] from rfl, hnil]
      · rw [dif_neg h1]
        by_cases h2 : ((results.drop offset).take ps).length < ps
        · rw [dif_pos h2]
          have htake : (results.drop offset).take ps = results.drop offset := by
            apply List.take_of_length_le
            have := List.length_take ps (results.drop offset)
            omega
          rw [htake]
        · rw [dif_neg h2]
          have hlent := List.length_take ps (results.drop offset)
          have hlend := List.length_drop offset results
          have hmeas : results.length - (offset + ps) ≤ n := by omega
          rw [ih (offset + ps) _ hmeas, hf]
          have hsplit : (results.drop offset).take ps ++ results.drop (offset + ps) =
              results.drop offset := by
            have hdd : results.drop (offset + ps) = (results.drop offset).drop ps := by
              rw [List.drop_drop]
            rw [hdd]
            exact List.take_append_drop ps (results.drop offset)
          rw [← filterSingleSlave_append, hsplit]
  intro offset acc
  exact main (results.length - offset) offset acc le_rfl

/-- Membership in the id-keyed dict accumulation, assuming equal ids imply
equal records over an ambient set. -/
theorem insertNew_mem (S : List TransactionWithSlaves) (hinj : IdInjOn S) :
    ∀ (l acc : List TransactionWithSlaves), (∀ x ∈ acc, x ∈ S) →
      (∀ x ∈ l, x ∈ S) →
      ∀ x, x ∈ insertNew acc l ↔ x ∈ acc ∨ x ∈ l := by
  intro l
  induction l with
  | nil =>
    intro acc _ _ x
    simp [insertNew]
  | cons y l ih =>
    intro acc hacc hl x
    have hstep : insertNew acc (y :: l) =
        insertNew (if acc.any (fun t => t.transactionId == y.transactionId)
          then acc else acc ++ [y]) l := by
      simp only [insertNew, List.foldl_cons]
    by_cases hany : acc.any (fun t => t.transactionId == y.transactionId)
    · obtain ⟨t, ht, heq⟩ := List.any_eq_true.mp hany
      have hty : t = y :=
        hinj t (hacc t ht) y (hl y (List.mem_cons_self y l)) (by simpa using heq)
      have hy_in : y ∈ acc := hty ▸ ht
      rw [hstep, if_pos hany,
        ih acc hacc (fun z hz => hl z (List.mem_cons_of_mem y hz))]
      constructor
      · rintro (hx | hx)
        · exact Or.inl hx
        · exact Or.inr (List.mem_cons_of_mem y hx)
      · rintro (hx | hx)
        · exact Or.inl hx
        · rcases List.mem_cons.mp hx with rfl | hx
          · exact Or.inl hy_in
          · exact Or.inr hx
    · have hacc2 : ∀ z ∈ acc ++ [y], z ∈ S := by
        intro z hz
        rcases List.mem_append.mp hz with hz | hz
        · exact hacc z hz
        · rw [List.mem_singleton.mp hz]
          exact hl y (List.mem_cons_self y l)
      rw [hstep, if_neg hany,
        ih (acc ++ [y]) hacc2 (fun z hz => hl z (List.mem_cons_of_mem y hz))]
      simp only [List.mem_append, List.mem_singleton, List.mem_cons]
      tauto

/-- The id-keyed dict accumulation keeps the transaction ids duplicate-free. -/
theorem insertNew_nodup :
    ∀ (l acc : List TransactionWithSlaves),
      (acc.map (fun r => r.transactionId)).Nodup →
      ((insertNew acc l).map (fun r => r.transactionId)).Nodup := by
  intro l
  induction l with
  | nil =>
    intro acc h
    exact h
  | cons y l ih =>
    intro acc h
    have hstep : insertNew acc (y :: l) =
        insertNew (if acc.any (fun t => t.transactionId == y.transactionId)
          then acc else acc ++ [y]) l := by
      simp only [insertNew, List.foldl_cons]
    rw [hstep]
    by_cases hany : acc.any (fun t => t.transactionId == y.transactionId)
    · rw [if_pos hany]
      exact ih acc h
    · rw [if_neg hany]
      apply ih
      rw [List.map_append]
      simp only [List.map_cons, List.map_nil]
      rw [List.nodup_append]
      refine ⟨h, List.nodup_singleton _, ?_⟩
      intro a ha hb
      rw [List.mem_singleton.mp hb] at ha
      obtain ⟨r, hr, hre⟩ := List.mem_map.mp ha
      exact hany (List.any_eq_true.mpr ⟨r, hr, by simpa using hre⟩)

/-- The base-query result carries at most one record per transaction id when
the `Transactions` table does. -/
theorem baseQuery_idInj (db : Store) (rule : Rule)
    (hids : (db.transactions.map (fun t => t.transactionId)).Nodup) :
    IdInjOn (baseQueryResults db rule) := by
  intro a ha b hb heq
  unfold baseQueryResults at ha hb
  obtain ⟨ta, hta, rfl⟩ := List.mem_map.mp ha
  obtain ⟨tb, htb, rfl⟩ := List.mem_map.mp hb
  have hta' : ta ∈ db.transactions := List.mem_of_mem_filter hta
  have htb' : tb ∈ db.transactions := List.mem_of_mem_filter htb
  have : ta = tb := List.inj_on_of_nodup_map hids hta' htb' heq
  rw [this]

theorem mem_matchAndConditions (db : Store) (rule : Rule)
    (conds : List Condition) (ps : ℕ) (hps : 0 < ps) (hconds : conds ≠ [])
    (r : TransactionWithSlaves) :
    r ∈ matchAndConditions db rule conds ps ↔
      r ∈ baseQueryResults db rule ∧ r.TransactionsSlaves.length = 1 ∧
        ∀ c ∈ conds, conditionHolds c r = true := by
  unfold matchAndConditions
  rw [if_neg (by simpa using hconds)]
  rw [fetchLoop_eq (fun a b => a ++ b) (fun a => List.append_nil a)
    (fun a b c => List.append_assoc a b c) _ ps hps 0 []]
  rw [List.drop_zero, List.nil_append, mem_filterSingleSlave, List.mem_filter]
  simp only [List.all_eq_true]
  tauto

theorem mem_matchOrConditions (db : Store) (rule : Rule)
    (conds : List Condition) (ps : ℕ) (hps : 0 < ps)
    (hinj : IdInjOn (baseQueryResults db rule)) (r : TransactionWithSlaves) :
    r ∈ matchOrConditions db rule conds ps ↔
      ∃ c ∈ conds, r ∈ baseQueryResults db rule ∧
        r.TransactionsSlaves.length = 1 ∧ conditionHolds c r = true := by
  unfold matchOrConditions
  have main : ∀ (cs : List Condition) (acc : List TransactionWithSlaves),
      (∀ x ∈ acc, x ∈ baseQueryResults db rule) →
      (∀ x, x ∈ cs.foldl (fun acc c =>
          fetchLoop insertNew
            ((baseQueryResults db rule).filter (fun r => conditionHolds c r))
            ps 0 acc) acc ↔
        x ∈ acc ∨ ∃ c ∈ cs, x ∈ baseQueryResults db rule ∧
          x.TransactionsSlaves.length = 1 ∧ conditionHolds c x = true) := by
    intro cs
    induction cs with
    | nil =>
      intro acc hacc x
      simp
    | cons c cs ih =>
      intro acc hacc x
      rw [List.foldl_cons]
      have hone : fetchLoop insertNew
          ((baseQueryResults db rule).filter (fun r => conditionHolds c r))
          ps 0 acc =
          insertNew acc (filterSingleSlave
            ((baseQueryResults db rule).filter (fun r => conditionHolds c r))) := by
        rw [fetchLoop_eq insertNew (fun a => rfl)
          (fun a b d => (insertNew_append a b d).symm) _ ps hps 0 acc]
        rw [List.drop_zero]
      have hsub : ∀ z ∈ filterSingleSlave
          ((baseQueryResults db rule).filter (fun r => conditionHolds c r)),
          z ∈ baseQueryResults db rule := by
        intro z hz
        have := (mem_filterSingleSlave _ z).mp hz
        exact List.mem_of_mem_filter this.1
      have hacc2 : ∀ z ∈ insertNew acc (filterSingleSlave
          ((baseQueryResults db rule).filter (fun r => conditionHolds c r))),
          z ∈ baseQueryResults db rule := by
        intro z hz
        rcases (insertNew_mem _ hinj _ acc hacc hsub z).mp hz with h | h
        · exact hacc z h
        · exact hsub z h
      rw [hone, ih _ hacc2, insertNew_mem _ hinj _ acc hacc hsub]
      rw [mem_filterSingleSlave, List.mem_filter]
      constructor
      · rintro ((hx | hx) | hx)
        · exact Or.inl hx
        · exact Or.inr ⟨c, List.mem_cons_self c cs, hx.1.1, hx.2, hx.1.2⟩
        · obtain ⟨c', hc', hx⟩ := hx
          exact Or.inr ⟨c', List.mem_cons_of_mem c hc', hx⟩
      · rintro (hx | ⟨c', hc', hx⟩)
        · exact Or.inl (Or.inl hx)
        · rcases List.mem_cons.mp hc' with rfl | hc'
          · exact Or.inl (Or.inr ⟨⟨hx.1, hx.2.2⟩, hx.2.1⟩)
          · exact Or.inr ⟨c', hc', hx⟩
  rw [main conds [] (by intro x hx; cases hx) r]
  simp

theorem groupEval_and (db : Store) (rule : Rule) (conds : List Condition)
    (ps : ℕ) : groupEval db rule ⟨.and, conds⟩ ps =
      matchAndConditions db rule conds ps := rfl

theorem groupEval_or (db : Store) (rule : Rule) (conds : List Condition)
    (ps : ℕ) : groupEval db rule ⟨.or, conds⟩ ps =
      matchOrConditions db rule conds ps := rfl

theorem MatchesGroup_and (db : Store) (rule : Rule) (conds : List Condition)
    (r : TransactionWithSlaves) : MatchesGroup db rule ⟨.and, conds⟩ r ↔
      r ∈ baseQueryResults db rule ∧ r.TransactionsSlaves.length = 1 ∧
        ∀ c ∈ conds, conditionHolds c r = true := Iff.rfl

theorem MatchesGroup_or (db : Store) (rule : Rule) (conds : List Condition)
    (r : TransactionWithSlaves) : MatchesGroup db rule ⟨.or, conds⟩ r ↔
      r ∈ baseQueryResults db rule ∧ r.TransactionsSlaves.length = 1 ∧
        ∃ c ∈ conds, conditionHolds c r = true := Iff.rfl

/-- A group's evaluation is exactly the records matching it (empty condition
lists match nothing). -/
theorem mem_groupEval (db : Store) (rule : Rule) (g : ConditionGroup) (ps : ℕ)
    (hps : 0 < ps) (hinj : IdInjOn (baseQueryResults db rule))
    (r : TransactionWithSlaves) :
    r ∈ groupEval db rule g ps ↔
      g.conditions ≠ [] ∧ MatchesGroup db rule g r := by
  obtain ⟨op, conds⟩ := g
  cases op with
  | and =>
    by_cases hc : conds = []
    · subst hc
      rw [groupEval_and]
      unfold matchAndConditions
      simp
    · rw [groupEval_and, mem_matchAndConditions db rule conds ps hps hc r,
        MatchesGroup_and]
      simp only [ne_eq, hc, not_false_eq_true, true_and]
  | or =>
    rw [groupEval_or, mem_matchOrConditions db rule conds ps hps hinj r,
      MatchesGroup_or]
    constructor
    · rintro ⟨c, hc, h1, h2, h3⟩
      refine ⟨?_, h1, h2, c, hc, h3⟩
      intro h
      rw [show ({ operator := LogicalOperator.or, conditions := conds } :
        ConditionGroup).conditions = conds from rfl] at h
      rw [h] at hc
      cases hc
    · rintro ⟨hne, h1, h2, c, hc, h3⟩
      exact ⟨c, hc, h1, h2, h3⟩

theorem groupEval_subset (db : Store) (rule : Rule) (g : ConditionGroup)
    (ps : ℕ) (hps : 0 < ps) (hinj : IdInjOn (baseQueryResults db rule)) :
    ∀ r ∈ groupEval db rule g ps, r ∈ baseQueryResults db rule := by
  intro r hr
  exact ((mem_groupEval db rule g ps hps hinj r).mp hr).2.1

/-- C6.  `find_matching_transactions` returns the union over every condition
group of that group's evaluation, de-duplicated by transaction id (groups
are always OR'd together regardless of their own operator): a transaction
is returned iff some group with a nonempty condition list matches it, where
an AND group requires every condition simultaneously and an OR group at
least one; a rule with no groups, and a group with no conditions, match
nothing. -/
theorem find_matching_spec (db : Store) (rule : Rule) (ps : ℕ) (hps : 0 < ps)
    (hids : (db.transactions.map (fun t => t.transactionId)).Nodup) :
    (∀ r, r ∈ find_matching_transactions db rule ps ↔
      ∃ g ∈ rule.condition_groups, g.conditions ≠ [] ∧
        MatchesGroup db rule g r) ∧
    ((find_matching_transactions db rule ps).map
      (fun r => r.transactionId)).Nodup ∧
    (rule.condition_groups = [] → find_matching_transactions db rule ps = []) := by
  have hinj : IdInjOn (baseQueryResults db rule) := baseQuery_idInj db rule hids
  have hstep : ∀ (gs : List ConditionGroup) (acc : List TransactionWithSlaves),
      (∀ x ∈ acc, x ∈ baseQueryResults db rule) →
      (∀ x, x ∈ gs.foldl (fun acc g =>
          if g.conditions.isEmpty then acc
          else insertNew acc (groupEval db rule g ps)) acc ↔
        x ∈ acc ∨ ∃ g ∈ gs, g.conditions ≠ [] ∧ MatchesGroup db rule g x) := by
    intro gs
    induction gs with
    | nil =>
      intro acc hacc x
      simp
    | cons g gs ih =>
      intro acc hacc x
      rw [List.foldl_cons]
      by_cases hge : g.conditions.isEmpty
      · rw [if_pos hge]
        rw [ih acc hacc x]
        have hgnil : g.conditions = [] := by simpa using hge
        constructor
        · rintro (hx | hx)
          · exact Or.inl hx
          · obtain ⟨g', hg', hx⟩ := hx
            exact Or.inr ⟨g', List.mem_cons_of_mem g hg', hx⟩
        · rintro (hx | ⟨g', hg', hne, hx⟩)
          · exact Or.inl hx
          · rcases List.mem_cons.mp hg' with rfl | hg'
            · exact absurd hgnil hne
            · exact Or.inr ⟨g', hg', hne, hx⟩
      · rw [if_neg hge]
        have hsub := groupEval_subset db rule g ps hps hinj
        have hacc2 : ∀ z ∈ insertNew acc (groupEval db rule g ps),
            z ∈ baseQueryResults db rule := by
          intro z hz
          rcases (insertNew_mem _ hinj _ acc hacc hsub z).mp hz with h | h
          · exact hacc z h
          · exact hsub z h
        rw [ih _ hacc2 x, insertNew_mem _ hinj _ acc hacc hsub x,
          mem_groupEval db rule g ps hps hinj x]
        constructor
        · rintro ((hx | hx) | hx)
          · exact Or.inl hx
          · exact Or.inr ⟨g, List.mem_cons_self g gs, hx⟩
          · obtain ⟨g', hg', hx⟩ := hx
            exact Or.inr ⟨g', List.mem_cons_of_mem g hg', hx⟩
        · rintro (hx | ⟨g', hg', hx⟩)
          · exact Or.inl (Or.inl hx)
          · rcases List.mem_cons.mp hg' with rfl | hg'
            · exact Or.inl (Or.inr hx)
            · exact Or.inr ⟨g', hg', hx⟩
  have hnodupstep : ∀ (gs : List ConditionGroup) (acc : List TransactionWithSlaves),
      (acc.map (fun r => r.transactionId)).Nodup →
      ((gs.foldl (fun acc g =>
          if g.conditions.isEmpty then acc
          else insertNew acc (groupEval db rule g ps)) acc).map
        (fun r => r.transactionId)).Nodup := by
    intro gs
    induction gs with
    | nil =>
      intro acc h
      exact h
    | cons g gs ih =>
      intro acc h
      rw [List.foldl_cons]
      by_cases hge : g.conditions.isEmpty
      · rw [if_pos hge]
        exact ih acc h
      · rw [if_neg hge]
        exact ih _ (insertNew_nodup _ acc h)
  refine ⟨?_, ?_, ?_⟩
  · intro r
    unfold find_matching_transactions
    by_cases hempty : rule.condition_groups.isEmpty
    · rw [if_pos hempty]
      have hnil : rule.condition_groups = [] := by simpa using hempty
      simp [hnil]
    · rw [if_neg hempty]
      rw [hstep rule.condition_groups [] (by intro x hx; cases hx) r]
      simp
  · unfold find_matching_transactions
    by_cases hempty : rule.condition_groups.isEmpty
    · rw [if_pos hempty]
      simp
    · rw [if_neg hempty]
      exact hnodupstep rule.condition_groups [] (by simp)
  · intro h
    unfold find_matching_transactions
    rw [if_pos (by simp [h])]

/-- C6 witness: the AMAZON PRIME transaction is returned for the AND rule
whose two CONTAINS conditions both hold. -/
theorem find_matching_spec_witness :
    mkRecord w6db w6ta ∈ find_matching_transactions w6db w6rule 5 := by
  have hbase : mkRecord w6db w6ta ∈ baseQueryResults w6db w6rule := by
    rw [show baseQueryResults w6db w6rule = [mkRecord w6db w6ta] from rfl]
    exact List.mem_singleton.mpr rfl
  refine ((find_matching_spec w6db w6rule 5 (by decide) (by decide)).1
    (mkRecord w6db w6ta)).mpr ⟨w6group, List.mem_cons_self _ _, ?_, ?_⟩
  · intro h
    cases h
  · refine (MatchesGroup_and w6db w6rule _ _).mpr ⟨hbase, rfl, ?_⟩
    intro c hc
    rcases List.mem_cons.mp hc with rfl | hc
    · decide
    rcases List.mem_cons.mp hc with rfl | hc
    · decide
    cases hc

/-! ## Batch application lemmas -/

theorem processTransaction_inv (rule : Rule) (st : BatchState)
    (t : TransactionWithSlaves) (h : BatchInv st) :
    BatchInv (processTransaction rule st t) := by
  obtain ⟨h1, h2, h3, h4⟩ := h
  unfold processTransaction
  by_cases hc : st.processedIds.contains t.transactionId
  · rw [if_pos hc]
    exact ⟨h1, h2, h3, h4⟩
  · rw [if_neg hc]
    have hnotmem : t.transactionId ∉ st.processedIds := by
      intro hmem
      exact hc (List.elem_iff.mpr hmem)
    by_cases hs : (apply_processor_to_transaction st.db t rule.processor_config
        st.fresh).1.success
    · rw [if_pos hs]
      refine ⟨by dsimp only; omega,
        by dsimp only; rw [List.length_append]; dsimp only [List.length_singleton]; omega, ?_, ?_⟩
      · simp only [List.map_append, List.map_cons, List.map_nil]
        rw [List.nodup_append]
        refine ⟨h3, List.nodup_singleton _, ?_⟩
        intro a ha hb
        rw [List.mem_singleton.mp hb] at ha
        obtain ⟨p, hp, hpe⟩ := List.mem_map.mp ha
        exact hnotmem (hpe ▸ h4 p hp)
      · intro p hp
        simp only [List.mem_append]
        rcases List.mem_append.mp hp with hp | hp
        · exact Or.inl (h4 p hp)
        · rcases List.mem_singleton.mp hp with rfl
          exact Or.inr (List.mem_singleton.mpr rfl)
    · rw [if_neg hs]
      refine ⟨by dsimp only; omega, h2, h3, h4⟩

theorem foldl_processTransaction_inv (rule : Rule)
    (l : List TransactionWithSlaves) :
    ∀ st : BatchState, BatchInv st →
      BatchInv (l.foldl (processTransaction rule) st) := by
  induction l with
  | nil =>
    intro st h
    exact h
  | cons t l ih =>
    intro st h
    rw [List.foldl_cons]
    exact ih _ (processTransaction_inv rule st t h)

theorem foldl_processRule_inv (rules : List Rule) :
    ∀ st : BatchState, BatchInv st → BatchInv (rules.foldl processRule st) := by
  induction rules with
  | nil =>
    intro st h
    exact h
  | cons r rules ih =>
    intro st h
    rw [List.foldl_cons]
    exact ih _ (foldl_processTransaction_inv r _ st h)

/-- C7.  One batch run applies the enabled rules in descending priority
order (the rule list is sorted, every rule in it enabled); a transaction
successfully categorized appears at most once in the detail list — a later
rule never re-categorizes it; per-transaction failures are only counted:
`processed = categorized + failed` and the detail list has exactly one row
per categorization, so a failure never aborts the remaining batch. -/
theorem process_matching_spec (db : Store) :
    (process_matching db).1.processed =
      (process_matching db).1.categorized + (process_matching db).1.failed ∧
    (process_matching db).1.details.length = (process_matching db).1.categorized ∧
    ((process_matching db).1.details.map Prod.fst).Nodup ∧
    List.Pairwise (fun a b : Rule => b.priority ≤ a.priority)
      (sortedEnabledRules db.rules) ∧
    (∀ r ∈ sortedEnabledRules db.rules, r.enabled = true) := by
  have hinv : BatchInv ((sortedEnabledRules db.rules).foldl processRule
      { db := db,
        results := { processed := 0, categorized := 0, failed := 0, details := [] },
        processedIds := [], fresh := 0 }) := by
    apply foldl_processRule_inv
    exact ⟨rfl, rfl, List.nodup_nil, by intro p hp; cases hp⟩
  obtain ⟨h1, h2, h3, _⟩ := hinv
  refine ⟨h1, h2, h3, ?_, ?_⟩
  · have hs := @List.sorted_mergeSort Rule
      (fun a b : Rule => decide (b.priority ≤ a.priority))
      (fun a b c hab hbc => decide_eq_true
        (le_trans (of_decide_eq_true hbc) (of_decide_eq_true hab)))
      (fun a b => by
        rcases le_total b.priority a.priority with h | h
        · simp [h]
        · simp [h])
      (db.rules.filter (fun r => r.enabled))
    exact hs.imp (fun h => of_decide_eq_true h)
  · intro r hr
    unfold sortedEnabledRules at hr
    rw [List.mem_mergeSort] at hr
    exact List.of_mem_filter hr

/-- C7 witness: the batch invariants instantiated on the one-rule store. -/
theorem process_matching_spec_witness :
    (process_matching w7db).1.processed =
      (process_matching w7db).1.categorized + (process_matching w7db).1.failed ∧
    ((process_matching w7db).1.details.map Prod.fst).Nodup :=
  ⟨(process_matching_spec w7db).1, (process_matching_spec w7db).2.2.1⟩

/-! ## Transfer engine lemmas -/

/-- Whether the canonical record of a pair is present. -/
theorem rejected_filter_empty_iff (table : List RejectedPair) (x y : String) :
    ((table.filter (fun p => p.transaction_id_1 == min x y &&
      p.transaction_id_2 == max x y)).isEmpty = true) ↔
    ¬∃ p ∈ table, p.transaction_id_1 = min x y ∧ p.transaction_id_2 = max x y := by
  rw [List.isEmpty_iff, List.filter_eq_nil_iff]
  constructor
  · rintro h ⟨p, hp, h1, h2⟩
    exact h p hp (by simp [h1, h2])
  · intro h p hp hpred
    simp only [Bool.and_eq_true, beq_iff_eq] at hpred
    exact h ⟨p, hp, hpred.1, hpred.2⟩

/-- C10.  `reject` canonicalizes the pair smaller-id-first (so rejecting
`(a,b)` and `(b,a)` target the same record) and fails with a conflict
signal iff the canonical pair already exists, inserting the canonical
record otherwise; `unreject` deletes the canonical record and fails with a
not-found signal iff no such record exists (deleting nothing leaves the
table unchanged). -/
theorem reject_unreject_spec (table : List RejectedPair) (a b : String)
    (reason : Option String) :
    (reject_transfer_candidate table a b reason =
      reject_transfer_candidate table b a reason) ∧
    (unreject_transfer_candidate table a b =
      unreject_transfer_candidate table b a) ∧
    ((∃ e, reject_transfer_candidate table a b reason = .error (.conflict e)) ↔
      ∃ p ∈ table, p.transaction_id_1 = min a b ∧ p.transaction_id_2 = max a b) ∧
    (∀ t' r, reject_transfer_candidate table a b reason = .ok (t', r) →
      t' = table ++ [r] ∧ r.transaction_id_1 = min a b ∧
        r.transaction_id_2 = max a b ∧ r.rejected_reason = reason) ∧
    ((∃ e, unreject_transfer_candidate table a b = .error (.notFound e)) ↔
      ¬∃ p ∈ table, p.transaction_id_1 = min a b ∧ p.transaction_id_2 = max a b) ∧
    (∀ t', unreject_transfer_candidate table a b = .ok t' →
      t' = table.filter (fun p => !(p.transaction_id_1 == min a b &&
        p.transaction_id_2 == max a b))) := by
  refine ⟨?_, ?_, ?_, ?_, ?_, ?_⟩
  · unfold reject_transfer_candidate
    rw [min_comm a b, max_comm a b]
  · unfold unreject_transfer_candidate
    rw [min_comm a b, max_comm a b]
  · unfold reject_transfer_candidate
    by_cases h : (table.filter (fun p => p.transaction_id_1 == min a b &&
        p.transaction_id_2 == max a b)).isEmpty
    · rw [if_neg (by simp [h])]
      simp only [reduceCtorEq, exists_false, false_iff]
      exact (rejected_filter_empty_iff table a b).mp h
    · rw [if_pos (by simpa using h)]
      constructor
      · intro _
        by_contra hno
        exact h ((rejected_filter_empty_iff table a b).mpr hno)
      · intro _
        exact ⟨"This pair has already been rejected", rfl⟩
  · intro t' r
    unfold reject_transfer_candidate
    by_cases h : (table.filter (fun p => p.transaction_id_1 == min a b &&
        p.transaction_id_2 == max a b)).isEmpty
    · rw [if_neg (by simp [h])]
      intro heq
      injection heq with heq
      injection heq with h1 h2
      subst h1
      subst h2
      exact ⟨rfl, rfl, rfl, rfl⟩
    · rw [if_pos (by simpa using h)]
      intro heq
      cases heq
  · unfold unreject_transfer_candidate
    by_cases h : (table.filter (fun p => p.transaction_id_1 == min a b &&
        p.transaction_id_2 == max a b)).isEmpty
    · rw [if_pos h]
      constructor
      · intro _
        exact (rejected_filter_empty_iff table a b).mp h
      · intro _
        exact ⟨"Rejected pair not found", rfl⟩
    · rw [if_neg h]
      simp only [reduceCtorEq, exists_false, false_iff, not_not]
      by_contra hno
      exact h ((rejected_filter_empty_iff table a b).mpr hno)
  · intro t'
    unfold unreject_transfer_candidate
    by_cases h : (table.filter (fun p => p.transaction_id_1 == min a b &&
        p.transaction_id_2 == max a b)).isEmpty
    · rw [if_pos h]
      intro heq
      cases heq
    · rw [if_neg h]
      intro heq
      injection heq with heq
      exact heq.symm

/-- C10 witness: rejecting `(b,a)` targets the same record as `(a,b)`, and
unrejecting a pair absent from the table signals not-found. -/
theorem reject_unreject_spec_witness :
    reject_transfer_candidate [] "t2" "t1" none =
      reject_transfer_candidate [] "t1" "t2" none ∧
    (∃ e, unreject_transfer_candidate [] "t1" "t2" = .error (.notFound e)) := by
  refine ⟨(reject_unreject_spec [] "t2" "t1" none).1, ?_⟩
  refine (reject_unreject_spec [] "t1" "t2" none).2.2.2.2.1.mpr ?_
  rintro ⟨p, hp, _⟩
  cases hp

/-- `find?` succeeding names an element satisfying the predicate. -/
theorem find?_id_eq {l : List TTx} {i : String} {t : TTx}
    (h : l.find? (fun x => x.transactionId == i) = some t) :
    t.transactionId = i := by
  have := List.find?_some h
  simpa using this

/-- A successful merge's exact result store. -/
theorem merge_transfer_ok (db : TDb) (cid did fsid : String) (ctx dtx : TTx)
    (hfc : db.transactions.find? (fun t => t.transactionId == cid) = some ctx)
    (hfd : db.transactions.find? (fun t => t.transactionId == did) = some dtx)
    (ham : ctx.amount = dtx.amount) (hday : dayPart ctx.date = dayPart dtx.date)
    (hct : lowerStr ctx.type = "credit") (hdt : lowerStr dtx.type = "debit") :
    merge_transfer db cid did fsid = .ok
      { transactions := db.transactions.filter (fun t =>
          !(t.transactionId == dtx.transactionId)),
        slaves := mergeSlaves db ctx dtx fsid,
        accounts := db.accounts } := by
  unfold merge_transfer
  simp only [hfc, hfd]
  rw [if_neg (by simp [ham]), if_neg (by simp [hday]),
    if_neg (by simp [hct]), if_neg (by simp [hdt])]
  rfl

/-- After a merge the kept master's slave set is exactly the new transfer
slave. -/
theorem mergeSlaves_filter_ctx (db : TDb) (ctx dtx : TTx) (fsid : String)
    (hne : ctx.transactionId ≠ dtx.transactionId) :
    (mergeSlaves db ctx dtx fsid).filter
      (fun s => s.masterId == ctx.transactionId) = [mergeNewSlave ctx dtx fsid] := by
  unfold mergeSlaves
  rw [List.filter_append, List.filter_append]
  have h1 : ((db.slaves.filter (fun s =>
      !((db.slaves.filter (fun e => e.masterId == ctx.transactionId)).any
        (fun e => e.slaveId == s.slaveId)))).filter (fun s =>
      !(s.masterId == dtx.transactionId))).filter
      (fun s => s.masterId == ctx.transactionId) = [] := by
    rw [List.filter_eq_nil_iff]
    intro s hs
    rw [List.mem_filter] at hs
    obtain ⟨hs1, _⟩ := hs
    rw [List.mem_filter] at hs1
    obtain ⟨hsdb, hf1⟩ := hs1
    simp only [beq_iff_eq]
    intro hq
    have hmem : s ∈ db.slaves.filter (fun e => e.masterId == ctx.transactionId) :=
      List.mem_filter.mpr ⟨hsdb, by rw [beq_iff_eq, hq]⟩
    have hany : (db.slaves.filter (fun e =>
        e.masterId == ctx.transactionId)).any
        (fun e => e.slaveId == s.slaveId) = true :=
      List.any_eq_true.mpr ⟨s, hmem, beq_self_eq_true _⟩
    rw [hany] at hf1
    simp at hf1
  have h2 : (([mergeNewSlave ctx dtx fsid] : List TSlave).filter (fun s =>
      !(s.masterId == dtx.transactionId))).filter
      (fun s => s.masterId == ctx.transactionId) = [mergeNewSlave ctx dtx fsid] := by
    have hstep : (([mergeNewSlave ctx dtx fsid] : List TSlave).filter (fun s =>
        !(s.masterId == dtx.transactionId))) = [mergeNewSlave ctx dtx fsid] := by
      rw [List.filter_cons]
      rw [if_pos (by
        simp only [Bool.not_eq_true', beq_eq_false_iff_ne, ne_eq]
        exact hne)]
      rfl
    rw [hstep, List.filter_cons]
    rw [if_pos (by simp [mergeNewSlave])]
    rfl
  rw [h1, h2]
  rfl

/-- Every slave surviving a merge is an original slave or the new transfer
slave. -/
theorem mergeSlaves_mem (db : TDb) (ctx dtx : TTx) (fsid : String) :
    ∀ s ∈ mergeSlaves db ctx dtx fsid,
      s ∈ db.slaves ∨ s = mergeNewSlave ctx dtx fsid := by
  intro s hs
  unfold mergeSlaves at hs
  rw [List.mem_filter] at hs
  rcases List.mem_append.mp hs.1 with h | h
  · exact Or.inl (List.mem_of_mem_filter h)
  · exact Or.inr (List.mem_singleton.mp h)

/-- No slave of the deleted debit master survives a merge. -/
theorem mergeSlaves_no_debit (db : TDb) (ctx dtx : TTx) (fsid : String) :
    ∀ s ∈ mergeSlaves db ctx dtx fsid, ¬ (s.masterId = dtx.transactionId) := by
  intro s hs
  unfold mergeSlaves at hs
  rw [List.mem_filter] at hs
  have h := hs.2
  simp only [Bool.not_eq_true', beq_eq_false_iff_ne, ne_eq] at h
  exact h


/-- C8.  `merge_transfer` succeeds iff both transactions exist, their
amounts are equal, their dates are equal at day granularity, and the
transaction named credit (debit) actually has type credit (debit) — any
violation yields an error before any write (the input store is untouched);
on success the kept credit transaction's slave set becomes exactly one new
slave pointing at the debit transaction's account with `amount =
debit.amount` and type `"debit"`, the debit transaction is deleted, and no
slave of the debit transaction survives. -/
theorem merge_spec (db : TDb) (cid did fsid : String) :
    ((∃ db', merge_transfer db cid did fsid = .ok db') ↔ MergePreconds db cid did) ∧
    ((∃ e, merge_transfer db cid did fsid = .error e) ↔ ¬ MergePreconds db cid did) ∧
    (∀ ctx dtx,
      db.transactions.find? (fun t => t.transactionId == cid) = some ctx →
      db.transactions.find? (fun t => t.transactionId == did) = some dtx →
      ctx.amount = dtx.amount → dayPart ctx.date = dayPart dtx.date →
      lowerStr ctx.type = "credit" → lowerStr dtx.type = "debit" →
      ∃ db', merge_transfer db cid did fsid = .ok db' ∧
        db'.transactions = db.transactions.filter (fun t =>
          !(t.transactionId == did)) ∧
        db'.accounts = db.accounts ∧
        db'.slaves.filter (fun s => s.masterId == cid) =
          [{ slaveId := fsid, masterId := cid, accountId := dtx.accountId,
             amount := dtx.amount, type := "debit", date := ctx.date : TSlave }] ∧
        ∀ s ∈ db'.slaves, ¬ (s.masterId = did)) := by
  have hok : ∀ ctx dtx,
      db.transactions.find? (fun t => t.transactionId == cid) = some ctx →
      db.transactions.find? (fun t => t.transactionId == did) = some dtx →
      ctx.amount = dtx.amount → dayPart ctx.date = dayPart dtx.date →
      lowerStr ctx.type = "credit" → lowerStr dtx.type = "debit" →
      ∃ db', merge_transfer db cid did fsid = .ok db' ∧
        db'.transactions = db.transactions.filter (fun t =>
          !(t.transactionId == did)) ∧
        db'.accounts = db.accounts ∧
        db'.slaves.filter (fun s => s.masterId == cid) =
          [{ slaveId := fsid, masterId := cid, accountId := dtx.accountId,
             amount := dtx.amount, type := "debit", date := ctx.date : TSlave }] ∧
        ∀ s ∈ db'.slaves, ¬ (s.masterId = did) := by
    intro ctx dtx hfc hfd ham hday hct hdt
    have hcid : ctx.transactionId = cid := find?_id_eq hfc
    have hdid : dtx.transactionId = did := find?_id_eq hfd
    have hne : cid ≠ did := by
      intro h
      rw [h] at hfc
      rw [hfc] at hfd
      injection hfd with hfd
      rw [hfd, hdt] at hct
      exact absurd hct (by decide)
    have hmerge : merge_transfer db cid did fsid = .ok
        { transactions := db.transactions.filter (fun t =>
            !(t.transactionId == did)),
          slaves := ((db.slaves.filter (fun s =>
            !((db.slaves.filter (fun e => e.masterId == ctx.transactionId)).any
              (fun e => e.slaveId == s.slaveId)))) ++
            [({ slaveId := fsid, masterId := ctx.transactionId,
                accountId := dtx.accountId, amount := dtx.amount,
                type := "debit", date := ctx.date } : TSlave)]).filter (fun s =>
            !(s.masterId == dtx.transactionId)),
          accounts := db.accounts } := by
      unfold merge_transfer
      simp only [hfc, hfd]
      rw [if_neg (by simp [ham]), if_neg (by simp [hday]),
        if_neg (by simp [hct]), if_neg (by simp [hdt])]
      rw [hdid]
    refine ⟨_, hmerge, rfl, rfl, ?_, ?_⟩
    · dsimp only
      rw [List.filter_append, List.filter_append]
      have h1 : ((db.slaves.filter (fun s =>
          !((db.slaves.filter (fun e => e.masterId == ctx.transactionId)).any
            (fun e => e.slaveId == s.slaveId)))).filter (fun s =>
          !(s.masterId == dtx.transactionId))).filter
          (fun s => s.masterId == cid) = [] := by
        rw [List.filter_eq_nil_iff]
        intro s hs
        rw [List.mem_filter] at hs
        obtain ⟨hs1, _⟩ := hs
        rw [List.mem_filter] at hs1
        obtain ⟨hsdb, hf1⟩ := hs1
        simp only [beq_iff_eq]
        intro hq
        have hmem : s ∈ db.slaves.filter (fun e => e.masterId == ctx.transactionId) :=
          List.mem_filter.mpr ⟨hsdb, by rw [beq_iff_eq, hq, hcid]⟩
        have hany : (db.slaves.filter (fun e =>
            e.masterId == ctx.transactionId)).any
            (fun e => e.slaveId == s.slaveId) = true :=
          List.any_eq_true.mpr ⟨s, hmem, beq_self_eq_true _⟩
        rw [hany] at hf1
        simp at hf1
      have h2 :
          (([{ slaveId := fsid, masterId := ctx.transactionId,
               accountId := dtx.accountId, amount := dtx.amount,
               type := "debit", date := ctx.date : TSlave }] :
            List TSlave).filter (fun s =>
            !(s.masterId == dtx.transactionId))).filter
            (fun s => s.masterId == cid) =
          [{ slaveId := fsid, masterId := cid, accountId := dtx.accountId,
             amount := dtx.amount, type := "debit", date := ctx.date : TSlave }] := by
        rw [hcid]
        have hstep :
            (([{ slaveId := fsid, masterId := cid, accountId := dtx.accountId,
                 amount := dtx.amount, type := "debit", date := ctx.date : TSlave }] :
              List TSlave).filter (fun s => !(s.masterId == dtx.transactionId))) =
            [{ slaveId := fsid, masterId := cid, accountId := dtx.accountId,
               amount := dtx.amount, type := "debit", date := ctx.date : TSlave }] := by
          rw [List.filter_cons]
          rw [if_pos (by
            simp only [Bool.not_eq_true', beq_eq_false_iff_ne, ne_eq]
            rw [hdid]
            exact hne)]
          rfl
        rw [hstep, List.filter_cons]
        rw [if_pos (by simp)]
        rfl
      rw [h1, h2]
      rfl
    · intro s hs
      rw [List.mem_filter] at hs
      have := hs.2
      simp only [Bool.not_eq_true', beq_eq_false_iff_ne, ne_eq] at this
      rw [hdid] at this
      exact this
  have hokiff : (∃ db', merge_transfer db cid did fsid = .ok db') ↔
      MergePreconds db cid did := by
    constructor
    · rintro ⟨db', hdb'⟩
      unfold merge_transfer at hdb'
      cases hfc : db.transactions.find? (fun t => t.transactionId == cid) with
      | none =>
        simp only [hfc] at hdb'
        cases hdb'
      | some ctx =>
        simp only [hfc] at hdb'
        cases hfd : db.transactions.find? (fun t => t.transactionId == did) with
        | none =>
          simp only [hfd] at hdb'
          cases hdb'
        | some dtx =>
          simp only [hfd] at hdb'
          by_cases h1 : ctx.amount = dtx.amount
          on_goal 2 => rw [if_pos h1] at hdb'; cases hdb'
          rw [if_neg (by simp [h1])] at hdb'
          by_cases h2 : dayPart ctx.date = dayPart dtx.date
          on_goal 2 => rw [if_pos h2] at hdb'; cases hdb'
          rw [if_neg (by simp [h2])] at hdb'
          by_cases h3 : lowerStr ctx.type = "credit"
          on_goal 2 => rw [if_pos h3] at hdb'; cases hdb'
          rw [if_neg (by simp [h3])] at hdb'
          by_cases h4 : lowerStr dtx.type = "debit"
          on_goal 2 => rw [if_pos h4] at hdb'; cases hdb'
          exact ⟨ctx, dtx, hfc, hfd, h1, h2, h3, h4⟩
    · rintro ⟨ctx, dtx, hfc, hfd, h1, h2, h3, h4⟩
      obtain ⟨db', hdb', _⟩ := hok ctx dtx hfc hfd h1 h2 h3 h4
      exact ⟨db', hdb'⟩
  refine ⟨hokiff, ?_, hok⟩
  constructor
  · rintro ⟨e, he⟩ hpre
    obtain ⟨db', hdb'⟩ := hokiff.mpr hpre
    rw [hdb'] at he
    cases he
  · intro hno
    cases hm : merge_transfer db cid did fsid with
    | error e => exact ⟨e, rfl⟩
    | ok db' => exact absurd (hokiff.mp ⟨db', hm⟩) hno

/-- `find?` ignores a filter that keeps everything the predicate accepts. -/
theorem find?_filter_of_imp {α : Type} (l : List α) (p q : α → Bool)
    (h : ∀ a, p a = true → q a = true) :
    (l.filter q).find? p = l.find? p := by
  induction l with
  | nil => rfl
  | cons a l ih =>
    rw [List.filter_cons, List.find?_cons]
    by_cases hq : q a
    · rw [if_pos hq, List.find?_cons]
      by_cases hp : p a
      · rw [hp]
      · rw [Bool.not_eq_true] at hp
        rw [hp]
        exact ih
    · have hp : p a = false := by
        by_contra hc
        rw [Bool.not_eq_false] at hc
        exact hq (h a hc)
      rw [if_neg hq, hp]
      exact ih

/-- Rewriting a slave's account id commutes with filtering by master id. -/
theorem filter_masterId_map_upd (l : List TSlave) (sid uid mid : String) :
    (l.map (fun s => if s.slaveId == sid then { s with accountId := uid }
      else s)).filter (fun s => s.masterId == mid) =
    (l.filter (fun s => s.masterId == mid)).map (fun s =>
      if s.slaveId == sid then { s with accountId := uid } else s) := by
  induction l with
  | nil => rfl
  | cons a l ih =>
    have hmid : ((if a.slaveId == sid then { a with accountId := uid }
        else a) : TSlave).masterId = a.masterId := by
      by_cases hs : a.slaveId == sid
      · rw [if_pos hs]
      · rw [if_neg hs]
    rw [List.map_cons, List.filter_cons, List.filter_cons, hmid]
    by_cases h : a.masterId == mid
    · rw [if_pos h, if_pos h, List.map_cons, ih]
    · rw [if_neg h, if_neg h, ih]

/-- A successful split's exact result: the new master on the slave's
account, the inverse slave back to the original master's account, and the
original slave rewritten onto the Unknown sentinel.  Stated for the
merged-transfer shape (a debit slave of a credit master carrying the same
amount), for which the debit/credit assertions hold. -/
theorem split_slave_ok (db : TDb) (tid sid ftx fsl uid : String)
    (tx : TTx) (sl : TSlave) (acct : Account)
    (huid : findUnknownAccountId db = some uid)
    (htx : db.transactions.find? (fun t => t.transactionId == tid) = some tx)
    (hsl : (db.slaves.filter (fun s => s.masterId == tid)).find?
      (fun s => s.slaveId == sid) = some sl)
    (hacct : db.accounts.find? (fun a => a.accountId == sl.accountId) = some acct)
    (hreal : acct.is_real = true)
    (hamt : 0 ≤ sl.amount)
    (hsltype : sl.type = "debit")
    (htxtype : lowerStr tx.type = "credit")
    (hamount : tx.amount = sl.amount) :
    split_slave db tid sid ftx fsl = .ok
      ({ transactions := db.transactions ++
          [{ transactionId := ftx,
             description := "Split from transaction " ++ tid, date := sl.date,
             type := "debit", amount := sl.amount, accountId := sl.accountId }],
         slaves := (db.slaves.map (fun s => if s.slaveId == sid then
           { s with accountId := uid } else s)) ++
           [{ slaveId := fsl, masterId := ftx, accountId := tx.accountId,
              amount := sl.amount, type := "credit", date := sl.date }],
         accounts := db.accounts },
       { transactionId := ftx, description := "Split from transaction " ++ tid,
         date := sl.date, type := "debit", amount := sl.amount,
         accountId := sl.accountId },
       { slaveId := fsl, masterId := ftx, accountId := tx.accountId,
         amount := sl.amount, type := "credit", date := sl.date }) := by
  unfold split_slave
  simp only [huid, htx, hsl, hacct]
  rw [if_neg (by simp [hreal])]
  simp only [hsltype]
  rw [if_neg (not_lt.mpr hamt)]
  rw [if_neg (by
    simp only [ne_eq, not_not, htxtype]
    norm_num
    simp [eq_false (show ¬("credit" = "debit") from by decide),
      eq_false (show ¬("debit" = "credit") from by decide)]
    try ring)]
  rw [if_neg (by
    simp only [ne_eq, not_not, htxtype, hamount]
    norm_num
    simp [eq_false (show ¬("credit" = "debit") from by decide),
      eq_false (show ¬("debit" = "credit") from by decide)]
    try ring)]
  rfl

/-- Witness for C8: merging the clean pair of `exampleTDb` succeeds; the
kept credit master's slave set becomes exactly the one new debit slave on
the debit transaction's account, the debit transaction's row is filtered
out, and no slave of the debit master survives. -/
theorem merge_spec_witness :
    ∃ db', merge_transfer exampleTDb "c" "d" "f1" = .ok db' ∧
      db'.transactions = exampleTDb.transactions.filter (fun t =>
        !(t.transactionId == "d")) ∧
      db'.accounts = exampleTDb.accounts ∧
      db'.slaves.filter (fun s => s.masterId == "c") =
        [{ slaveId := "f1", masterId := "c", accountId := c9dtx.accountId,
           amount := c9dtx.amount, type := "debit", date := c9ctx.date : TSlave }] ∧
      ∀ s ∈ db'.slaves, ¬ (s.masterId = "d") :=
  (merge_spec exampleTDb "c" "d" "f1").2.2 c9ctx c9dtx rfl rfl rfl rfl rfl rfl

/-- C9.  Amended round trip: for a clean pair satisfying the merge
preconditions (with the debit master on a real account, a nonnegative
amount, and fresh synthetic ids), `merge` followed by `split` of the new
slave succeeds and restores a debit master with the original debit amount
and type alongside the kept credit master, whose own slave set is again
exactly one debit slave on the Unknown sentinel; but the respawned debit
master's slave points back at the kept credit master's account — not at
the Unknown sentinel, as the slaves of the original clean pair did — so
the round trip restores signed amounts and the kept master's Unknown-slave
state, while the respawned master's slave state differs from the
original's beyond a change of synthetic ids. -/
theorem merge_split_roundtrip
    (db : TDb) (cid did fsid ftx fsl uid : String) (ctx dtx : TTx) (acctD : Account)
    (hfc : db.transactions.find? (fun t => t.transactionId == cid) = some ctx)
    (hfd : db.transactions.find? (fun t => t.transactionId == did) = some dtx)
    (ham : ctx.amount = dtx.amount)
    (hday : dayPart ctx.date = dayPart dtx.date)
    (hct : lowerStr ctx.type = "credit")
    (hdt : lowerStr dtx.type = "debit")
    (huid : findUnknownAccountId db = some uid)
    (hacct : db.accounts.find? (fun a => a.accountId == dtx.accountId) = some acctD)
    (hreal : acctD.is_real = true)
    (hamt : 0 ≤ dtx.amount)
    (hcacc : ctx.accountId ≠ uid)
    (hfreshm : ∀ s ∈ db.slaves, s.masterId ≠ ftx)
    (hftxcid : ftx ≠ cid) :
    ∃ db1 db2 newTx newSl,
      merge_transfer db cid did fsid = .ok db1 ∧
      split_slave db1 cid fsid ftx fsl = .ok (db2, newTx, newSl) ∧
      newTx.amount = dtx.amount ∧
      newTx.type = "debit" ∧
      ctx ∈ db2.transactions ∧
      newTx ∈ db2.transactions ∧
      db2.slaves.filter (fun s => s.masterId == cid) =
        [{ slaveId := fsid, masterId := cid, accountId := uid,
           amount := dtx.amount, type := "debit", date := ctx.date : TSlave }] ∧
      db2.slaves.filter (fun s => s.masterId == ftx) = [newSl] ∧
      newSl.amount = dtx.amount ∧
      newSl.type = "credit" ∧
      newSl.accountId = ctx.accountId ∧
      newSl.accountId ≠ uid := by
  have hcid : ctx.transactionId = cid := find?_id_eq hfc
  have hdid : dtx.transactionId = did := find?_id_eq hfd
  have hne : cid ≠ did := by
    intro h
    rw [h] at hfc
    rw [hfc] at hfd
    injection hfd with hfd
    rw [hfd, hdt] at hct
    exact absurd hct (by decide)
  have hnectx : ctx.transactionId ≠ dtx.transactionId := by
    rw [hcid, hdid]
    exact hne
  have hmerge := merge_transfer_ok db cid did fsid ctx dtx hfc hfd ham hday hct hdt
  have himp : ∀ a : TTx, (a.transactionId == cid) = true →
      (!(a.transactionId == dtx.transactionId)) = true := by
    intro a ha
    simp only [beq_iff_eq] at ha
    simp only [Bool.not_eq_true', beq_eq_false_iff_ne, ne_eq, ha, hdid]
    exact hne
  have htx1 := (find?_filter_of_imp db.transactions _ _ himp).trans hfc
  have hfiltc : (mergeSlaves db ctx dtx fsid).filter
      (fun s => s.masterId == cid) = [mergeNewSlave ctx dtx fsid] := by
    rw [← hcid]
    exact mergeSlaves_filter_ctx db ctx dtx fsid hnectx
  have hsl1 : ((mergeSlaves db ctx dtx fsid).filter
      (fun s => s.masterId == cid)).find?
      (fun s => s.slaveId == fsid) = some (mergeNewSlave ctx dtx fsid) := by
    rw [hfiltc]
    exact List.find?_cons_of_pos _ (by simp [mergeNewSlave])
  have hftxnil : (mergeSlaves db ctx dtx fsid).filter
      (fun s => s.masterId == ftx) = [] := by
    rw [List.filter_eq_nil_iff]
    intro s hs
    simp only [beq_iff_eq]
    rcases mergeSlaves_mem db ctx dtx fsid s hs with h | h
    · exact hfreshm s h
    · rw [h]
      show ¬ (ctx.transactionId = ftx)
      rw [hcid]
      exact fun he => hftxcid he.symm
  have hsplit := split_slave_ok
    { transactions := db.transactions.filter (fun t =>
        !(t.transactionId == dtx.transactionId)),
      slaves := mergeSlaves db ctx dtx fsid,
      accounts := db.accounts }
    cid fsid ftx fsl uid ctx (mergeNewSlave ctx dtx fsid) acctD
    huid htx1 hsl1 hacct hreal hamt rfl hct ham
  refine ⟨_, _, _, _, hmerge, hsplit, rfl, rfl, ?_, ?_, ?_, ?_, rfl, rfl, rfl, hcacc⟩
  · dsimp only
    refine List.mem_append_left _ ?_
    refine List.mem_filter.mpr ⟨List.mem_of_find?_eq_some hfc, ?_⟩
    simp only [Bool.not_eq_true', beq_eq_false_iff_ne, ne_eq, hcid, hdid]
    exact hne
  · dsimp only
    exact List.mem_append_right _ (List.mem_singleton.mpr rfl)
  · dsimp only
    rw [List.filter_append, filter_masterId_map_upd, hfiltc]
    simp [mergeNewSlave, hcid, hftxcid]
  · dsimp only
    rw [List.filter_append, filter_masterId_map_upd, hftxnil]
    simp

/-- Counterexample to C9 as stated: in the original clean pair of
`exampleTDb` both masters' slaves point at the Unknown sentinel account
`"acct-u"` (last conjunct shows it for the debit master `"d"`), but after
`merge("c","d")` followed by `split` of the new slave, the slave of the
respawned debit master points at `"acct-a"` — the kept credit master's
real account — not at the Unknown sentinel, so the round trip is not the
identity up to synthetic ids on the Unknown-slave state. -/
theorem merge_split_roundtrip_counterexample :
    (match merge_transfer exampleTDb "c" "d" "f1" with
      | .ok db1 =>
        match split_slave db1 "c" "f1" "f2" "f3" with
        | .ok (_, _, newSl) => some newSl.accountId
        | .error _ => none
      | .error _ => none) = some "acct-a" ∧
    findUnknownAccountId exampleTDb = some "acct-u" ∧
    ("acct-a" : String) ≠ "acct-u" ∧
    (exampleTDb.slaves.filter (fun s => s.masterId == "d")).map
      (fun s => s.accountId) = ["acct-u"] := by
  have hmerge := merge_transfer_ok exampleTDb "c" "d" "f1" c9ctx c9dtx
    rfl rfl rfl rfl rfl rfl
  have hsplit := split_slave_ok
    { transactions := exampleTDb.transactions.filter (fun t =>
        !(t.transactionId == c9dtx.transactionId)),
      slaves := mergeSlaves exampleTDb c9ctx c9dtx "f1",
      accounts := exampleTDb.accounts }
    "c" "f1" "f2" "f3" "acct-u" c9ctx (mergeNewSlave c9ctx c9dtx "f1") realAccountB
    rfl rfl rfl rfl rfl (by decide) rfl rfl rfl
  refine ⟨?_, rfl, by decide, rfl⟩
  simp only [hmerge, hsplit]
  rfl

/-- Witness for C9's amended theorem at the clean pair of `exampleTDb`:
every hypothesis holds concretely and the characterized round-trip result
exists. -/
theorem merge_split_roundtrip_witness :
    ∃ db1 db2 newTx newSl,
      merge_transfer exampleTDb "c" "d" "f1" = .ok db1 ∧
      split_slave db1 "c" "f1" "f2" "f3" = .ok (db2, newTx, newSl) ∧
      newTx.amount = c9dtx.amount ∧
      newTx.type = "debit" ∧
      c9ctx ∈ db2.transactions ∧
      newTx ∈ db2.transactions ∧
      db2.slaves.filter (fun s => s.masterId == "c") =
        [{ slaveId := "f1", masterId := "c", accountId := "acct-u",
           amount := c9dtx.amount, type := "debit", date := c9ctx.date : TSlave }] ∧
      db2.slaves.filter (fun s => s.masterId == "f2") = [newSl] ∧
      newSl.amount = c9dtx.amount ∧
      newSl.type = "credit" ∧
      newSl.accountId = c9ctx.accountId ∧
      newSl.accountId ≠ "acct-u" :=
  merge_split_roundtrip exampleTDb "c" "d" "f1" "f2" "f3" "acct-u" c9ctx c9dtx
    realAccountB rfl rfl rfl rfl rfl rfl rfl rfl rfl (by decide) (by decide)
    (by decide) (by decide)

end Ploutos
